import Mathlib

/-!
Verification development for the dBFT consensus engine of the saiya-node
repository (package `pkg/dbft`).

The Go sources embedded here are `pkg/dbft/check.go` (checkPrepare,
checkCommit, checkChangeView), `pkg/dbft/config.go` (the DBFT state machine:
OnReceive, OnTimeout, OnTransaction, the on* dispatch handlers,
updateExistingPayloads, processMissingTx, createAndCheckBlock,
InitializeConsensus, changeTimer, extendTimer) and
`pkg/dbft/payload/recovery_message.go` (the RecoveryMessage codec and its
derived-payload generators).

The repository's `pkg/dbft/context.go`, `pkg/dbft/send.go`,
`pkg/dbft/cache.go`, the payload structs other than recoveryMessage, and the
`pkg/io` binary reader/writer are not available; every definition standing in
for one of them is marked `Modelled from the spec:` and follows the
specification's description of that component.

Machine integers: heights, views and indices are modelled as `Nat` (views and
heights stay far below their 8/32-bit bounds in every protocol run considered
here); wire-format integers in the codec section are serialized to explicit
base-256 byte lists. Durations are `Int` multiples of an abstract nanosecond.
-/

/-- Abstract cryptographic hash value (the engine never inspects hash
internals, it only compares them). -/
abbrev XHash := Nat

/-- Abstract public key. -/
abbrev PubKey := Nat

/-- Abstract address (`common.Address`, used for nextConsensus). -/
abbrev CAddr := Nat

/-- Abstract signature. We represent a signature as a pair so that a
concrete execution can use `mkSig pub h = (pub, headerEnc h)` and garbage
values such as `(0, 0)` are recognisably not signatures of any honest key. -/
abbrev DSig := Nat × Nat

/-- Timer tag `timer.HV`: the (height, view) a timer fire is tagged with. -/
structure THV where
  height : Nat
  view : Nat
deriving DecidableEq, Repr

/-- Consensus message types (`payload.MessageType`). -/
inductive MType
  | prepareRequestT
  | prepareResponseT
  | commitT
  | changeViewT
  | recoveryRequestT
  | recoveryMessageT
deriving DecidableEq, Repr

/-- Change-view reasons (`payload.CVTimeout`, `payload.CVChangeAgreement`,
`payload.CVTxInvalid`, `payload.CVBlockRejectedByPolicy`). -/
inductive CVReason
  | cvTimeout
  | cvChangeAgreement
  | cvTxInvalid
  | cvBlockRejectedByPolicy
deriving DecidableEq, Repr

/-- Body of a PrepareRequest (`payload.prepareRequest`). -/
structure PrepReqBody where
  timestamp : Nat
  nonce : Nat
  nextConsensus : CAddr
  transactionHashes : List XHash
deriving DecidableEq, Repr

/-- Body of a PrepareResponse (`payload.prepareResponse`). -/
structure PrepRespBody where
  preparationHash : XHash
deriving DecidableEq, Repr

/-- Body of a Commit (`payload.commit`). -/
structure CommitBody where
  signature : DSig
deriving DecidableEq, Repr

/-- Body of a ChangeView (`payload.changeView`). -/
structure ChangeViewBody where
  newViewNumber : Nat
  timestamp : Nat
  reason : CVReason
deriving DecidableEq, Repr

/-- Body of a RecoveryRequest (`payload.recoveryRequest`). -/
structure RecoveryRequestBody where
  timestamp : Nat
deriving DecidableEq, Repr

/-- Compact change-view entry of a recovery message
(`payload.changeViewCompact`). -/
structure CVCompact where
  validatorIndex : Nat
  originalViewNumber : Nat
  timestamp : Nat
deriving DecidableEq, Repr

/-- Compact preparation entry of a recovery message
(`payload.preparationCompact`). -/
structure PrepCompact where
  validatorIndex : Nat
deriving DecidableEq, Repr

/-- Compact commit entry of a recovery message (`payload.commitCompact`). -/
structure CommCompact where
  viewNumber : Nat
  validatorIndex : Nat
  signature : DSig
deriving DecidableEq, Repr

/-- Body of a RecoveryMessage (`payload.recoveryMessage`), carrying the
compact bundle that rebuilds the sender's view. -/
structure RecoveryBody where
  preparationHash : Option XHash
  preparationPayloads : List PrepCompact
  commitPayloads : List CommCompact
  changeViewPayloads : List CVCompact
  prepareRequest : Option PrepReqBody
deriving DecidableEq, Repr

/-- Typed payload body (tagged union over the six message kinds). -/
inductive PBody
  | prepareRequestB (b : PrepReqBody)
  | prepareResponseB (b : PrepRespBody)
  | commitB (b : CommitBody)
  | changeViewB (b : ChangeViewBody)
  | recoveryRequestB (b : RecoveryRequestBody)
  | recoveryMessageB (b : RecoveryBody)
deriving DecidableEq, Repr

/-- Consensus payload (`payload.ConsensusPayload`): validator index, height,
view, type tag and body. `body = none` models a message whose `Payload()`
is nil (the type tag is part of the message header and is readable even
then). -/
structure CPayload where
  validatorIndex : Nat
  height : Nat
  viewNumber : Nat
  ptype : MType
  body : Option PBody
deriving DecidableEq, Repr

/-- Extract the ChangeView body, if this payload carries one
(`ConsensusPayload.GetChangeView`). -/
def CPayload.getChangeView (p : CPayload) : Option ChangeViewBody :=
  match p.body with
  | some (.changeViewB b) => some b
  | _ => none

/-- Extract the PrepareRequest body (`ConsensusPayload.GetPrepareRequest`). -/
def CPayload.getPrepareRequest (p : CPayload) : Option PrepReqBody :=
  match p.body with
  | some (.prepareRequestB b) => some b
  | _ => none

/-- Extract the PrepareResponse body (`ConsensusPayload.GetPrepareResponse`). -/
def CPayload.getPrepareResponse (p : CPayload) : Option PrepRespBody :=
  match p.body with
  | some (.prepareResponseB b) => some b
  | _ => none

/-- Extract the Commit body (`ConsensusPayload.GetCommit`). -/
def CPayload.getCommit (p : CPayload) : Option CommitBody :=
  match p.body with
  | some (.commitB b) => some b
  | _ => none

/-- Extract the RecoveryMessage body (`ConsensusPayload.GetRecoveryMessage`). -/
def CPayload.getRecovery (p : CPayload) : Option RecoveryBody :=
  match p.body with
  | some (.recoveryMessageB b) => some b
  | _ => none

/-- Block header, the part of a block the consensus engine signs and
compares. Per the spec's signature contract the canonical header consists of
nextConsensus, the transaction hashes (standing for their merkle root),
timestamp, nonce, height and previous hash. -/
structure BHeader where
  prevHash : XHash
  timestamp : Nat
  nonce : Nat
  height : Nat
  nextConsensus : CAddr
  transactionHashes : List XHash
deriving DecidableEq, Repr

/-- Host environment (`dbft.Config` callbacks). Every field corresponds to a
callback the engine receives from the host; `now` is the value
`Timer.Now()` returns during the current entrypoint invocation. -/
structure HostEnv where
  secondsPerBlock : Int
  now : Nat
  nonce : Nat
  verifySig : BHeader → PubKey → DSig → Bool
  mySign : BHeader → DSig
  getTx : XHash → Bool
  verifyBlock : BHeader → Bool
  getValidators : Nat → List PubKey
  consensusAddress : List PubKey → CAddr
  verifyPrepareRequest : CPayload → Bool
  verifyPrepareResponse : CPayload → Bool
  phash : CPayload → XHash
  myIndexAt : Nat → Int
  watchOnlyHost : Bool
  getVerified : List XHash

/-- Consensus context (`dbft.Context`): the per-height, per-view state. -/
structure Ctx where
  blockIndex : Nat
  viewNumber : Nat
  validators : List PubKey
  myIndex : Int
  prevHash : XHash
  timestamp : Nat
  nonce : Nat
  nextConsensus : CAddr
  transactionHashes : Option (List XHash)
  transactions : List XHash
  missingTransactions : List XHash
  preparationPayloads : List (Option CPayload)
  commitPayloads : List (Option CPayload)
  changeViewPayloads : List (Option CPayload)
  lastSeenMessage : List (Option THV)
  blockProduced : Option BHeader
  lastBlockIndex : Nat
  lastBlockTime : Nat
deriving DecidableEq, Repr

/-- Read a slot of a payload-slice at a `Nat` index (out of range reads
give `none`, matching a nil entry). -/
def slotGet (l : List (Option CPayload)) (i : Nat) : Option CPayload :=
  (l.get? i).join

/-- Write a slot of a payload-slice at a `Nat` index (out of range writes
are dropped; the engine only writes indices below the validator count). -/
def slotSet (l : List (Option CPayload)) (i : Nat) (v : Option CPayload) :
    List (Option CPayload) :=
  l.set i v

/-- Read a slot at the node's own (possibly negative) index. -/
def slotGetI (l : List (Option CPayload)) (i : Int) : Option CPayload :=
  if 0 ≤ i then slotGet l i.toNat else none

/-- Write a slot at the node's own (possibly negative) index. -/
def slotSetI (l : List (Option CPayload)) (i : Int) (v : Option CPayload) :
    List (Option CPayload) :=
  if 0 ≤ i then slotSet l i.toNat v else l

/-- Validator count `Context.N()`. -/
def Ctx.nN (c : Ctx) : Nat := c.validators.length

/-- Fault bound `Context.F() = (N - 1) / 3`. -/
def Ctx.fF (c : Ctx) : Nat := (c.nN - 1) / 3

/-- Quorum `Context.M() = N - F`. -/
def Ctx.mM (c : Ctx) : Nat := c.nN - c.fF

/-- Modelled from the spec: primary index for view `v` at height `H` is
`(H - v) mod N` (spec §3, Validators and Role; `Context.GetPrimaryIndex` is
not in the available sources). -/
def Ctx.getPrimaryIndex (c : Ctx) (view : Nat) : Nat :=
  (((c.blockIndex : Int) - (view : Int)) % (c.nN : Int)).toNat

/-- Modelled from the spec: current `Context.PrimaryIndex`, maintained as
`primary(BlockIndex, ViewNumber)` (spec §3 invariant). -/
def Ctx.primaryIndex (c : Ctx) : Nat := c.getPrimaryIndex c.viewNumber

/-- Modelled from the spec: `Context.WatchOnly()` — true when the node is not
in the validator set at this height (`MyIndex = -1`) or the host forces
spectator role (spec §4.4 and §4.6). -/
def Ctx.watchOnly (c : Ctx) (env : HostEnv) : Bool :=
  c.myIndex < 0 || env.watchOnlyHost

/-- Modelled from the spec: `Context.IsPrimary()` — the local index equals
the primary index of the current view (spec §3, Local role). -/
def Ctx.isPrimary (c : Ctx) (env : HostEnv) : Bool :=
  !c.watchOnly env && c.myIndex == (c.primaryIndex : Int)

/-- Modelled from the spec: `Context.IsBackup()` — a validator that is not
the primary (spec §3, Local role). -/
def Ctx.isBackup (c : Ctx) (env : HostEnv) : Bool :=
  !c.watchOnly env && c.myIndex ≥ 0 && c.myIndex != (c.primaryIndex : Int)

/-- Modelled from the spec: `Context.RequestSentOrReceived()` — true once the
PrepareRequest slot for `PrimaryIndex` is filled (spec §4.4). -/
def Ctx.requestSentOrReceived (c : Ctx) : Bool :=
  (slotGet c.preparationPayloads c.primaryIndex).isSome

/-- Modelled from the spec: `Context.ResponseSent()` — the local slot holds a
PrepareResponse or PrepareRequest for this view (spec §4.4). -/
def Ctx.responseSent (c : Ctx) (env : HostEnv) : Bool :=
  !c.watchOnly env &&
    (match slotGetI c.preparationPayloads c.myIndex with
     | some p => p.ptype == MType.prepareRequestT || p.ptype == MType.prepareResponseT
     | none => false)

/-- Modelled from the spec: `Context.CommitSent()` — the local Commit slot is
filled for this view (spec §4.4: "true if the local Commit slot is filled
for this view"). -/
def Ctx.commitSent (c : Ctx) (env : HostEnv) : Bool :=
  !c.watchOnly env &&
    (match slotGetI c.commitPayloads c.myIndex with
     | some p => p.viewNumber == c.viewNumber
     | none => false)

/-- Modelled from the spec: `Context.BlockSent()` — a block was finalized for
this height (spec §4.4). -/
def Ctx.blockSent (c : Ctx) : Bool :=
  c.blockProduced.isSome

/-- Modelled from the spec: `Context.ViewChanging()` — the local ChangeView
payload requests a higher view than the current one (spec §4.4). -/
def Ctx.viewChanging (c : Ctx) (env : HostEnv) : Bool :=
  !c.watchOnly env &&
    (match slotGetI c.changeViewPayloads c.myIndex with
     | some p =>
       match p.getChangeView with
       | some cv => decide (c.viewNumber < cv.newViewNumber)
       | none => false
     | none => false)

/-- Modelled from the spec: `Context.MoreThanFNodesCommittedOrLost()` — the
count of validators that are committed or silent exceeds `F` (spec §4.4). A
validator counts when its Commit slot is filled or no message has been seen
from it at the current height. -/
def Ctx.moreThanFNodesCommittedOrLost (c : Ctx) : Bool :=
  decide (c.fF <
    ((List.range c.nN).filter fun i =>
      (slotGet c.commitPayloads i).isSome ||
        (match (c.lastSeenMessage.get? i).join with
         | some hv => decide (hv.height < c.blockIndex)
         | none => true)).length)

/-- Modelled from the spec: `Context.hasAllTransactions()` — every proposed
transaction hash has been resolved into the transaction map (spec §4.5
OnTransaction: "all missing txs are resolved"). -/
def Ctx.hasAllTransactions (c : Ctx) : Bool :=
  (c.transactionHashes.getD []).all fun h => c.transactions.contains h

/-- Modelled from the spec: the header built from the current context
(the canonical header the Commit signatures cover, spec §6 Signatures). -/
def Ctx.mkHeader (c : Ctx) : BHeader :=
  { prevHash := c.prevHash
    timestamp := c.timestamp
    nonce := c.nonce
    height := c.blockIndex
    nextConsensus := c.nextConsensus
    transactionHashes := c.transactionHashes.getD [] }

/-- Modelled from the spec: `Context.MakeHeader()` — build the header from
the current context once a PrepareRequest has supplied the transaction list;
nil before that (spec §4.4 and §4.5 Commit handling: "if header not yet
available, store unverified"). -/
def Ctx.makeHeader (c : Ctx) : Option BHeader :=
  match c.transactionHashes with
  | some _ => some c.mkHeader
  | none => none

/-- Modelled from the spec: `Context.CreateBlock()` — assemble the block
(header plus transactions in stored order) from the context (spec §4.4,
§4.6 NewBlockFromContext). Only the header part is relevant to agreement. -/
def Ctx.createBlock (c : Ctx) : BHeader := c.mkHeader

/-- Observable effects the engine produces through host callbacks and the
timer. -/
inductive Eff
  | broadcastE (p : CPayload)
  | timerResetE (hv : THV) (delay : Int)
  | timerExtendE (delta : Int)
  | processBlockE (b : BHeader)
  | requestTxE (hs : List XHash)
deriving DecidableEq, Repr

/-- Engine state (`dbft.DBFT` minus configuration): context, the recovering
flag and the future-message cache. The cache is modelled from the spec
(§3 Message Cache) as the list of cached payloads, since `dbft/cache.go` is
not among the available sources. -/
structure DState where
  ctx : Ctx
  recovering : Bool
  cache : List CPayload
deriving DecidableEq, Repr

/-- Result of a state-machine step: new state plus emitted effects. -/
abbrev StepRes := DState × List Eff

/-- Sequence two effectful computations, concatenating their effects. -/
def andThen (r : StepRes) (f : DState → StepRes) : StepRes :=
  let r2 := f r.1
  (r2.1, r.2 ++ r2.2)

/-- Effects-only action appended to a state. -/
def withEffs (st : DState) (es : List Eff) : StepRes := (st, es)

/-- Timer reset `DBFT.changeTimer`: emit a reset tagged with the current
(height, view). -/
def changeTimer (st : DState) (delay : Int) : StepRes :=
  (st, [Eff.timerResetE ⟨st.ctx.blockIndex, st.ctx.viewNumber⟩ delay])

/-- Timer extension `DBFT.extendTimer`: extend by
`count * SecondsPerBlock / M` unless a commit was sent or a view change is
in progress. -/
def extendTimer (env : HostEnv) (st : DState) (count : Int) : StepRes :=
  if !(st.ctx.commitSent env) && !(st.ctx.viewChanging env) then
    (st, [Eff.timerExtendE (count * env.secondsPerBlock / (st.ctx.mM : Int))])
  else (st, [])

/-- Modelled from the spec: `DBFT.sendCommit` (in the unavailable
`dbft/send.go`) — create a Commit carrying the node's signature over the
header assembled from the context, record it in the local Commit slot and
broadcast it (spec §3 Payload, §4.5 checkPrepare). -/
def mkCommitPayload (env : HostEnv) (c : Ctx) : CPayload :=
  { validatorIndex := c.myIndex.toNat
    height := c.blockIndex
    viewNumber := c.viewNumber
    ptype := MType.commitT
    body := some (.commitB ⟨env.mySign c.mkHeader⟩) }

/-- Modelled from the spec: the state and effect part of `DBFT.sendCommit`:
record the commit in the local slot and broadcast it. -/
def sendCommit (env : HostEnv) (st : DState) : StepRes :=
  let c := st.ctx
  let p := mkCommitPayload env c
  let c := { c with commitPayloads := slotSetI c.commitPayloads c.myIndex (some p) }
  ({ st with ctx := c }, [Eff.broadcastE p])

/-- Modelled from the spec: `DBFT.sendPrepareResponse` — create a
PrepareResponse endorsing the hash of the primary's PrepareRequest payload,
record it in the local preparation slot and broadcast it (spec §3 Payload,
§4.4 ResponseSent). -/
def sendPrepareResponse (env : HostEnv) (st : DState) : StepRes :=
  let c := st.ctx
  let ph := ((slotGet c.preparationPayloads c.primaryIndex).map env.phash).getD 0
  let p : CPayload :=
    { validatorIndex := c.myIndex.toNat
      height := c.blockIndex
      viewNumber := c.viewNumber
      ptype := MType.prepareResponseT
      body := some (.prepareResponseB ⟨ph⟩) }
  let c := { c with preparationPayloads := slotSetI c.preparationPayloads c.myIndex (some p) }
  ({ st with ctx := c }, [Eff.broadcastE p])

/-- Modelled from the spec: `DBFT.sendPrepareRequest` — the primary proposes
the verified transactions, fills the proposal fields of the context, stores
the request in its own preparation slot and broadcasts it (spec §4.5 Start
and OnTimeout, §4.6 GetVerified). -/
def sendPrepareRequest (env : HostEnv) (st : DState) : StepRes :=
  let c := st.ctx
  let txs := env.getVerified
  let body : PrepReqBody :=
    { timestamp := env.now
      nonce := env.nonce
      nextConsensus := env.consensusAddress (env.getValidators (c.blockIndex + 1))
      transactionHashes := txs }
  let p : CPayload :=
    { validatorIndex := c.myIndex.toNat
      height := c.blockIndex
      viewNumber := c.viewNumber
      ptype := MType.prepareRequestT
      body := some (.prepareRequestB body) }
  let c :=
    { c with
      timestamp := env.now
      nonce := env.nonce
      nextConsensus := body.nextConsensus
      transactionHashes := some txs
      transactions := txs
      preparationPayloads := slotSetI c.preparationPayloads c.myIndex (some p) }
  ({ st with ctx := c }, [Eff.broadcastE p])

/-- Modelled from the spec: `DBFT.sendChangeView` — broadcast a ChangeView
targeting view `ViewNumber + 1` with the given reason (spec §4.5 OnTimeout:
"send ChangeView with reason=Timeout targeting view ViewNumber+1"). -/
def sendChangeView (env : HostEnv) (st : DState) (reason : CVReason) : StepRes :=
  let c := st.ctx
  let p : CPayload :=
    { validatorIndex := c.myIndex.toNat
      height := c.blockIndex
      viewNumber := c.viewNumber
      ptype := MType.changeViewT
      body := some (.changeViewB ⟨c.viewNumber + 1, env.now, reason⟩) }
  (st, [Eff.broadcastE p])

/-- Modelled from the spec: the compact recovery bundle rebuilding the
sender's view (spec §3 Payload, RecoveryMessage), assembled from the context
slots exactly as `recoveryMessage.AddPayload` (which is in the sources)
stores each payload kind. -/
def buildRecovery (env : HostEnv) (c : Ctx) : RecoveryBody :=
  let reqPayload := c.preparationPayloads.findSome? fun o =>
    o.bind fun p => if p.ptype == MType.prepareRequestT then some p else none
  { preparationHash := reqPayload.map env.phash
    preparationPayloads := c.preparationPayloads.filterMap fun o =>
      o.bind fun p =>
        if p.ptype == MType.prepareResponseT then some ⟨p.validatorIndex⟩ else none
    commitPayloads := c.commitPayloads.filterMap fun o =>
      o.bind fun p =>
        (p.getCommit).map fun cb =>
          { viewNumber := p.viewNumber
            validatorIndex := p.validatorIndex
            signature := cb.signature }
    changeViewPayloads := c.changeViewPayloads.filterMap fun o =>
      o.map fun p =>
        { validatorIndex := p.validatorIndex
          originalViewNumber := p.viewNumber
          timestamp := 0 }
    prepareRequest := reqPayload.bind fun p => p.getPrepareRequest }

/-- Modelled from the spec: `DBFT.sendRecoveryMessage` — broadcast a
RecoveryMessage bundling the sender's view (spec §3 Payload,
§4.5 RecoveryRequest handling). -/
def sendRecoveryMessage (env : HostEnv) (st : DState) : StepRes :=
  let c := st.ctx
  let p : CPayload :=
    { validatorIndex := c.myIndex.toNat
      height := c.blockIndex
      viewNumber := c.viewNumber
      ptype := MType.recoveryMessageT
      body := some (.recoveryMessageB (buildRecovery env c)) }
  (st, [Eff.broadcastE p])

/-- Modelled from the spec: `Context.reset` (in the unavailable
`dbft/context.go`), following spec §4.4 Reset semantics. On a height change
(`view = 0`) all payload slots, transaction maps and proposed fields are
cleared, ChangeView slots included, and the new validator list is fetched
for the next height; on a view change the preparation slots and the
transaction fields are cleared while Commit and ChangeView slots are
retained and `ViewNumber` advances to the target view. -/
def Ctx.reset (c : Ctx) (env : HostEnv) (view : Nat) : Ctx :=
  if view = 0 then
    let bi := c.blockIndex + 1
    let vals := env.getValidators bi
    let n := vals.length
    { blockIndex := bi
      viewNumber := 0
      validators := vals
      myIndex := env.myIndexAt bi
      prevHash := 0
      timestamp := 0
      nonce := 0
      nextConsensus := 0
      transactionHashes := none
      transactions := []
      missingTransactions := []
      preparationPayloads := List.replicate n none
      commitPayloads := List.replicate n none
      changeViewPayloads := List.replicate n none
      lastSeenMessage := List.replicate n none
      blockProduced := none
      lastBlockIndex := c.lastBlockIndex
      lastBlockTime := c.lastBlockTime }
  else
    { c with
      viewNumber := view
      transactionHashes := none
      transactions := []
      missingTransactions := []
      preparationPayloads := List.replicate c.nN none
      blockProduced := none }

/-- `DBFT.InitializeConsensus` (config.go): reset the context to the given
view, then schedule the next timer fire. The primary waits a full
`SecondsPerBlock` on view 0 (unless recovering), everyone else backs off
exponentially; the wait is shortened by the time already elapsed since the
last accepted block. -/
def initializeConsensus (env : HostEnv) (st : DState) (view : Nat) : StepRes :=
  let c := st.ctx.reset env view
  let st := { st with ctx := c }
  if c.watchOnly env then (st, [])
  else
    let timeout : Int :=
      if c.isPrimary env && !st.recovering then
        (if view = 0 then env.secondsPerBlock else 0)
      else env.secondsPerBlock * 2 ^ (c.viewNumber + 1)
    let timeout :=
      if c.lastBlockIndex + 1 = c.blockIndex then
        max 0 (timeout - ((env.now : Int) - (c.lastBlockTime : Int)))
      else timeout
    (st, [Eff.timerResetE ⟨c.blockIndex, c.viewNumber⟩ timeout])

/-- Number of commit payloads stored for the current view
(the quorum count of `DBFT.checkCommit`). -/
def commitCount (c : Ctx) : Nat :=
  (c.commitPayloads.filter fun o =>
    match o with
    | some m => m.viewNumber == c.viewNumber
    | none => false).length

/-- `DBFT.checkCommit` (check.go): with all transactions present and at
least `M` commits at the current view, record the block production times,
assemble the block, hand it to the host and re-initialize at view 0. -/
def checkCommit (env : HostEnv) (st : DState) : StepRes :=
  let c := st.ctx
  if !c.hasAllTransactions then (st, [])
  else if commitCount c < c.mM then (st, [])
  else
    let c := { c with lastBlockIndex := c.blockIndex, lastBlockTime := env.now }
    let b := c.createBlock
    let c := { c with blockProduced := some b }
    andThen (withEffs { st with ctx := c } [Eff.processBlockE b])
      (fun st => initializeConsensus env st 0)

/-- Number of preparation payloads stored for the current view
(the quorum count of `DBFT.checkPrepare`). -/
def prepCount (c : Ctx) : Nat :=
  (c.preparationPayloads.filter fun o =>
    match o with
    | some m => m.viewNumber == c.viewNumber
    | none => false).length

/-- Whether some preparation slot holds a PrepareRequest
(the `hasRequest` flag of `DBFT.checkPrepare`). -/
def hasPrepRequest (c : Ctx) : Bool :=
  c.preparationPayloads.any fun o =>
    match o with
    | some m => m.ptype == MType.prepareRequestT
    | none => false

/-- `DBFT.checkPrepare` (check.go): with all transactions present, a
PrepareRequest among the preparation payloads and at least `M` preparations
at the current view, send a Commit, reset the timer to `SecondsPerBlock`
and run `checkCommit`. -/
def checkPrepare (env : HostEnv) (st : DState) : StepRes :=
  let c := st.ctx
  if !c.hasAllTransactions then (st, [])
  else if hasPrepRequest c && c.mM ≤ prepCount c then
    andThen (andThen (sendCommit env st)
        (fun st => changeTimer st env.secondsPerBlock))
      (checkCommit env)
  else (st, [])

/-- Modelled from the spec: the fresh ChangeView that `DBFT.checkChangeView`
broadcasts when the node's own ChangeView lags behind the accepted view
(spec §4.5 checkChangeView: "broadcast a fresh ChangeView with
reason=ChangeAgreement and the accepted v"; the constructor
`DBFT.makeChangeView` lives in the unavailable `dbft/send.go`). -/
def mkCVAgreement (env : HostEnv) (c : Ctx) (view : Nat) : CPayload :=
  { validatorIndex := c.myIndex.toNat
    height := c.blockIndex
    viewNumber := c.viewNumber
    ptype := MType.changeViewT
    body := some (.changeViewB ⟨view, env.now, CVReason.cvChangeAgreement⟩) }

/-- Number of ChangeView payloads requesting a view at least `view`
(the quorum count of `DBFT.checkChangeView`). -/
def cvCount (c : Ctx) (view : Nat) : Nat :=
  (c.changeViewPayloads.filter fun o =>
    match o with
    | some m =>
      match m.getChangeView with
      | some cv => decide (view ≤ cv.newViewNumber)
      | none => false
    | none => false).length

/-- `DBFT.checkChangeView` (check.go): for a view above the current one with
at least `M` ChangeViews requesting it (or higher), broadcast a catch-up
ChangeView when the node's own stored ChangeView proposes a lower view, then
re-initialize the context at the accepted view. -/
def checkChangeView (env : HostEnv) (st : DState) (view : Nat) : StepRes :=
  let c := st.ctx
  if view ≤ c.viewNumber then (st, [])
  else if cvCount c view < c.mM then (st, [])
  else
    let effs :=
      if !(c.watchOnly env) then
        match slotGetI c.changeViewPayloads c.myIndex with
        | some m =>
          match m.getChangeView with
          | some cv =>
            if cv.newViewNumber < view then [Eff.broadcastE (mkCVAgreement env c view)]
            else []
          | none => []
        | none => []
      else []
    andThen (withEffs st effs) (fun st => initializeConsensus env st view)

/-- `DBFT.processMissingTx` (config.go): walk the proposed hashes, pull the
ones the mempool has, and when some remain unknown record them as missing
and ask the host to fetch them. -/
def processMissingTx (env : HostEnv) (st : DState) : StepRes :=
  let c := st.ctx
  let step := fun (acc : List XHash × List XHash) (h : XHash) =>
    if acc.1.contains h then acc
    else if env.getTx h then (acc.1 ++ [h], acc.2)
    else (acc.1, acc.2 ++ [h])
  let res := (c.transactionHashes.getD []).foldl step (c.transactions, [])
  let c := { c with transactions := res.1 }
  if res.2.isEmpty then ({ st with ctx := c }, [])
  else
    ({ st with ctx := { c with missingTransactions := res.2 } },
      [Eff.requestTxE res.2])

/-- `DBFT.createAndCheckBlock` (config.go): check the proposed
nextConsensus against the host-computed address of the next validator set
and verify the assembled block; on failure broadcast the corresponding
ChangeView and report false. -/
def createAndCheckBlock (env : HostEnv) (st : DState) : StepRes × Bool :=
  let c := st.ctx
  if c.nextConsensus ≠ env.consensusAddress (env.getValidators (c.blockIndex + 1)) then
    (sendChangeView env st .cvBlockRejectedByPolicy, false)
  else if !(env.verifyBlock c.createBlock) then
    (sendChangeView env st .cvTxInvalid, false)
  else ((st, []), true)

/-- `DBFT.updateExistingPayloads` (config.go): after a PrepareRequest
arrives, clear stored PrepareResponses whose preparation hash does not match
the request payload's hash, and clear stored current-view Commits whose
signature fails against the now-known header. -/
def updateExistingPayloads (env : HostEnv) (st : DState) (msg : CPayload) : DState :=
  let c := st.ctx
  let prep := c.preparationPayloads.map fun o =>
    match o with
    | some m =>
      if m.ptype == MType.prepareResponseT then
        match m.getPrepareResponse with
        | some resp =>
          if resp.preparationHash ≠ env.phash msg then none else o
        | none => o
      else o
    | none => none
  let c := { c with preparationPayloads := prep }
  let commits := c.commitPayloads.map fun o =>
    match o with
    | some m =>
      if m.viewNumber == c.viewNumber then
        match c.makeHeader with
        | some header =>
          let pub := c.validators.getD m.validatorIndex 0
          let sig := ((m.getCommit).map fun cb => cb.signature).getD (0, 0)
          if env.verifySig header pub sig then o else none
        | none => o
      else o
    | none => none
  { st with ctx := { c with commitPayloads := commits } }

/-- `DBFT.onPrepareRequest` (config.go): accept the primary's proposal for
the current view once, copy the proposal fields, resolve transactions,
re-validate previously stored payloads, store the request, and when
everything is present respond and check for a preparation quorum. -/
def onPrepareRequest (env : HostEnv) (st : DState) (msg : CPayload) : StepRes :=
  let c := st.ctx
  if c.requestSentOrReceived then (st, [])
  else if c.viewNumber ≠ msg.viewNumber then (st, [])
  else if msg.validatorIndex ≠ c.getPrimaryIndex c.viewNumber then (st, [])
  else if !(env.verifyPrepareRequest msg) then
    sendChangeView env st .cvBlockRejectedByPolicy
  else
    andThen (extendTimer env st 2) fun st =>
      match msg.getPrepareRequest with
      | none => (st, [])
      | some p =>
        let c := st.ctx
        let c :=
          { c with
            timestamp := p.timestamp
            nonce := p.nonce
            nextConsensus := p.nextConsensus
            transactionHashes := some p.transactionHashes }
        andThen (processMissingTx env { st with ctx := c }) fun st =>
          let st := updateExistingPayloads env st msg
          let pp := slotSet st.ctx.preparationPayloads msg.validatorIndex (some msg)
          let st := { st with ctx := { st.ctx with preparationPayloads := pp } }
          if !st.ctx.hasAllTransactions then (st, [])
          else
            let rc := createAndCheckBlock env st
            if !rc.2 then rc.1
            else if rc.1.1.ctx.watchOnly env then rc.1
            else andThen (andThen rc.1 (sendPrepareResponse env)) (checkPrepare env)

/-- `DBFT.onPrepareResponse` (config.go): store a backup's response for the
current view when its slot is free and the node is not amid a view change,
drop it again if its preparation hash contradicts the stored request, then
extend the timer and check for a preparation quorum. -/
def onPrepareResponse (env : HostEnv) (st : DState) (msg : CPayload) : StepRes :=
  let c := st.ctx
  if c.viewNumber ≠ msg.viewNumber then (st, [])
  else if msg.validatorIndex = c.getPrimaryIndex c.viewNumber then (st, [])
  else if (slotGet c.preparationPayloads msg.validatorIndex).isSome
      || (c.viewChanging env && !c.moreThanFNodesCommittedOrLost) then (st, [])
  else if !(env.verifyPrepareResponse msg) then (st, [])
  else
    let c :=
      { c with preparationPayloads :=
        slotSet c.preparationPayloads msg.validatorIndex (some msg) }
    let st := { st with ctx := c }
    let tail : DState → StepRes := fun st =>
      andThen (extendTimer env st 2) fun st =>
        if !(st.ctx.watchOnly env) && !(st.ctx.commitSent env)
            && st.ctx.requestSentOrReceived then
          checkPrepare env st
        else (st, [])
    match slotGet c.preparationPayloads (c.getPrimaryIndex c.viewNumber) with
    | some m =>
      match m.getPrepareRequest with
      | none => (st, [])
      | some _ =>
        let prepHash := ((msg.getPrepareResponse).map fun r => r.preparationHash).getD 0
        if prepHash ≠ env.phash m then
          let pp := slotSet st.ctx.preparationPayloads msg.validatorIndex none
          ({ st with ctx := { st.ctx with preparationPayloads := pp } }, [])
        else tail st
    | none => tail st

/-- `DBFT.onRecoveryRequest` (config.go): a committed node always answers
with a RecoveryMessage; otherwise only the `F` validators following the
requester's index modulo `N` answer. -/
def onRecoveryRequest (env : HostEnv) (st : DState) (msg : CPayload) : StepRes :=
  let c := st.ctx
  if !(c.commitSent env) then
    let shouldSend := (List.range c.fF).any fun j =>
      (((msg.validatorIndex + (j + 1)) % c.validators.length : Nat) : Int) == c.myIndex
    if shouldSend then sendRecoveryMessage env st else (st, [])
  else sendRecoveryMessage env st

/-- `DBFT.onChangeView` (config.go): an outdated ChangeView acts as a
recovery request; a committed node answers with recovery instead of
changing view; otherwise the payload is stored unless the slot already
requests a strictly higher view, and the quorum check runs for its target
view. -/
def onChangeView (env : HostEnv) (st : DState) (msg : CPayload) : StepRes :=
  match msg.getChangeView with
  | none => (st, [])
  | some p =>
    let c := st.ctx
    if p.newViewNumber ≤ c.viewNumber then onRecoveryRequest env st msg
    else if c.commitSent env then sendRecoveryMessage env st
    else
      let proceed :=
        match slotGet c.changeViewPayloads msg.validatorIndex with
        | some m =>
          match m.getChangeView with
          | some mcv => !(p.newViewNumber < mcv.newViewNumber)
          | none => true
        | none => true
      if !proceed then (st, [])
      else
        let st :=
          { st with ctx :=
            { c with changeViewPayloads :=
              slotSet c.changeViewPayloads msg.validatorIndex (some msg) } }
        checkChangeView env st p.newViewNumber

/-- `DBFT.onCommit` (config.go): a commit for the current view is verified
against the header when one can be built and stored only on success (then
the commit quorum is checked); without a header it is stored unverified; a
commit for a different view is stored unconditionally. -/
def onCommit (env : HostEnv) (st : DState) (msg : CPayload) : StepRes :=
  let c := st.ctx
  if c.viewNumber = msg.viewNumber then
    andThen (extendTimer env st 4) fun st =>
      let c := st.ctx
      match c.makeHeader with
      | none =>
        ({ st with ctx :=
          { c with commitPayloads :=
            slotSet c.commitPayloads msg.validatorIndex (some msg) } }, [])
      | some header =>
        let pub := c.validators.getD msg.validatorIndex 0
        let sig := ((msg.getCommit).map fun cb => cb.signature).getD (0, 0)
        if env.verifySig header pub sig then
          let st :=
            { st with ctx :=
              { c with commitPayloads :=
                slotSet c.commitPayloads msg.validatorIndex (some msg) } }
          checkCommit env st
        else (st, [])
  else
    ({ st with ctx :=
      { c with commitPayloads :=
        slotSet c.commitPayloads msg.validatorIndex (some msg) } }, [])

/-- Monotone update of `LastSeenMessage` performed by `DBFT.OnReceive`
before dispatching. -/
def updateLastSeen (c : Ctx) (msg : CPayload) : Ctx :=
  let hv := (c.lastSeenMessage.get? msg.validatorIndex).join
  let upd :=
    match hv with
    | none => true
    | some hv => decide (hv.height < msg.height) || decide (hv.view < msg.viewNumber)
  if upd then
    { c with lastSeenMessage :=
      c.lastSeenMessage.set msg.validatorIndex (some ⟨msg.height, msg.viewNumber⟩) }
  else c

/-- Outcome of the `DBFT.OnReceive` precondition checks. -/
inductive FrontGate
  | dropG
  | cacheG
  | dispatchG
deriving DecidableEq, Repr

/-- Precondition checks of `DBFT.OnReceive` (config.go), in source order:
an out-of-range validator index or nil body or stale height is dropped; a
message from a future height, or from the immediately next view unless it
is a RecoveryMessage, is cached; everything else is dispatched. -/
def frontGate (c : Ctx) (msg : CPayload) : FrontGate :=
  if c.validators.length ≤ msg.validatorIndex then .dropG
  else if msg.body = none then .dropG
  else if msg.height < c.blockIndex then .dropG
  else if c.blockIndex < msg.height
      ∨ (msg.height = c.blockIndex ∧ msg.viewNumber = c.viewNumber + 1
          ∧ msg.ptype ≠ MType.recoveryMessageT) then .cacheG
  else if c.nN < msg.validatorIndex then .dropG
  else .dispatchG

/-- Type dispatch of `DBFT.OnReceive` for the five basic message kinds.
RecoveryMessage payloads never reach this function: the payloads derived
from a recovery bundle are constructed with basic types by the generators
in `recovery_message.go`. -/
def dispatchB (env : HostEnv) (st : DState) (msg : CPayload) : StepRes :=
  match msg.ptype with
  | .changeViewT => onChangeView env st msg
  | .prepareRequestT => onPrepareRequest env st msg
  | .prepareResponseT => onPrepareResponse env st msg
  | .commitT => onCommit env st msg
  | .recoveryRequestT => onRecoveryRequest env st msg
  | .recoveryMessageT => (st, [])

/-- The `DBFT.OnReceive` pipeline restricted to basic message kinds: the
re-entrant `d.OnReceive(m)` calls made while processing a recovery bundle
always see such messages. -/
def onReceiveB (env : HostEnv) (st : DState) (msg : CPayload) : StepRes :=
  match frontGate st.ctx msg with
  | .dropG => (st, [])
  | .cacheG => ({ st with cache := st.cache ++ [msg] }, [])
  | .dispatchG =>
    dispatchB env { st with ctx := updateLastSeen st.ctx msg } msg

/-- Feed a list of derived payloads through the basic receive pipeline in
order, as the loops of `DBFT.onRecoveryMessage` do. -/
def foldReceiveB (env : HostEnv) (msgs : List CPayload) (st : DState) : StepRes :=
  msgs.foldl (fun acc m => andThen acc fun st => onReceiveB env st m) (st, [])

/-- `recoveryMessage.GetChangeViews` (recovery_message.go): rebuild
ChangeView payloads from the compact entries; each requests the original
view plus one and inherits the recovery payload's height and view. -/
def getChangeViewsD (p : CPayload) (rb : RecoveryBody) : List CPayload :=
  rb.changeViewPayloads.map fun cv =>
    { validatorIndex := cv.validatorIndex
      height := p.height
      viewNumber := p.viewNumber
      ptype := MType.changeViewT
      body := some (.changeViewB ⟨cv.originalViewNumber + 1, cv.timestamp, .cvTimeout⟩) }

/-- `recoveryMessage.GetPrepareRequest` (recovery_message.go): rebuild the
embedded PrepareRequest, if any, attributing it to the given primary
index. -/
def getPrepareRequestD (p : CPayload) (rb : RecoveryBody) (ind : Nat) : Option CPayload :=
  rb.prepareRequest.map fun pr =>
    { validatorIndex := ind
      height := p.height
      viewNumber := p.viewNumber
      ptype := MType.prepareRequestT
      body := some (.prepareRequestB pr) }

/-- `recoveryMessage.GetPrepareResponses` (recovery_message.go): rebuild
PrepareResponse payloads carrying the bundled preparation hash; nothing is
produced without that hash. -/
def getPrepareResponsesD (p : CPayload) (rb : RecoveryBody) : List CPayload :=
  match rb.preparationHash with
  | none => []
  | some h =>
    rb.preparationPayloads.map fun stub =>
      { validatorIndex := stub.validatorIndex
        height := p.height
        viewNumber := p.viewNumber
        ptype := MType.prepareResponseT
        body := some (.prepareResponseB ⟨h⟩) }

/-- `recoveryMessage.GetCommits` (recovery_message.go): rebuild Commit
payloads from the compact entries. Note that the rebuilt payload's view is
the recovery payload's view (`fromPayload`), not the compact entry's
original view. -/
def getCommitsD (p : CPayload) (rb : RecoveryBody) : List CPayload :=
  rb.commitPayloads.map fun cc =>
    { validatorIndex := cc.validatorIndex
      height := p.height
      viewNumber := p.viewNumber
      ptype := MType.commitT
      body := some (.commitB ⟨cc.signature⟩) }

/-- `DBFT.onRecoveryMessage` (config.go): while `recovering` is set, feed
the bundled ChangeViews when the recovery is ahead of the current view (and
the node is not committed), the bundled PrepareRequest and responses at the
current view, and the bundled Commits when the recovery is not ahead. -/
def onRecoveryMessage (env : HostEnv) (st : DState) (msg : CPayload) : StepRes :=
  match msg.getRecovery with
  | none => (st, [])
  | some rb =>
    let st := { st with recovering := true }
    if st.ctx.viewNumber < msg.viewNumber ∧ st.ctx.commitSent env then
      ({ st with recovering := false }, [])
    else
      let r1 : StepRes :=
        if st.ctx.viewNumber < msg.viewNumber then
          foldReceiveB env (getChangeViewsD msg rb) st
        else (st, [])
      let r2 := andThen r1 fun st =>
        if msg.viewNumber = st.ctx.viewNumber
            ∧ ¬(st.ctx.viewChanging env ∧ ¬st.ctx.moreThanFNodesCommittedOrLost)
            ∧ ¬st.ctx.commitSent env then
          andThen
            (if !st.ctx.requestSentOrReceived then
              match getPrepareRequestD msg rb st.ctx.primaryIndex with
              | some pr => onReceiveB env st pr
              | none =>
                if st.ctx.isPrimary env then sendPrepareRequest env st else (st, [])
            else (st, []))
            (fun st => foldReceiveB env (getPrepareResponsesD msg rb) st)
        else (st, [])
      let r3 := andThen r2 fun st =>
        if msg.viewNumber ≤ st.ctx.viewNumber then
          foldReceiveB env (getCommitsD msg rb) st
        else (st, [])
      ({ r3.1 with recovering := false }, r3.2)

/-- `DBFT.OnReceive` (config.go): precondition gate, monotone
last-seen-message update, then dispatch by type. -/
def onReceive (env : HostEnv) (st : DState) (msg : CPayload) : StepRes :=
  match frontGate st.ctx msg with
  | .dropG => (st, [])
  | .cacheG => ({ st with cache := st.cache ++ [msg] }, [])
  | .dispatchG =>
    let st := { st with ctx := updateLastSeen st.ctx msg }
    match msg.ptype with
    | .recoveryMessageT => onRecoveryMessage env st msg
    | _ => dispatchB env st msg

/-- `DBFT.OnTimeout` (config.go): on a fire matching the current height and
view, the primary proposes if it has not yet, a committed node re-sends its
state through recovery, and everyone else asks for a view change. -/
def onTimeout (env : HostEnv) (st : DState) (hv : THV) : StepRes :=
  let c := st.ctx
  if c.watchOnly env then (st, [])
  else if hv.height ≠ c.blockIndex ∨ hv.view ≠ c.viewNumber then (st, [])
  else if c.isPrimary env ∧ ¬c.requestSentOrReceived then
    sendPrepareRequest env st
  else if (c.isPrimary env ∧ c.requestSentOrReceived) ∨ c.isBackup env then
    if c.commitSent env then
      andThen (sendRecoveryMessage env st)
        (fun st => changeTimer st (env.secondsPerBlock * 2))
    else sendChangeView env st .cvTimeout
  else (st, [])

/-- `DBFT.addTransaction` (config.go): record the transaction; once all
proposed transactions are present a backup validates the proposed block,
responds and checks for a preparation quorum. -/
def addTransaction (env : HostEnv) (st : DState) (txh : XHash) : StepRes :=
  let c := st.ctx
  let c :=
    { c with transactions :=
      if c.transactions.contains txh then c.transactions else c.transactions ++ [txh] }
  let st := { st with ctx := c }
  if !c.hasAllTransactions then (st, [])
  else if c.isPrimary env || c.watchOnly env then (st, [])
  else
    let rc := createAndCheckBlock env st
    if !rc.2 then rc.1
    else
      andThen (andThen (andThen rc.1 (fun st => extendTimer env st 2))
          (sendPrepareResponse env))
        (checkPrepare env)

/-- `DBFT.OnTransaction` (config.go): accept a transaction only while a
backup is actively awaiting missing transactions, then remove the hash from
the missing list by a swap-remove (unless the context moved to a new
height). -/
def onTransaction (env : HostEnv) (st : DState) (txh : XHash) : StepRes :=
  let c := st.ctx
  if !(c.isBackup env) || (c.viewChanging env && !c.moreThanFNodesCommittedOrLost)
      || !c.requestSentOrReceived || c.responseSent env || c.blockSent
      || c.missingTransactions.length = 0 then (st, [])
  else
    match c.missingTransactions.findIdx? (fun h => h == txh) with
    | none => (st, [])
    | some i =>
      let r := addTransaction env st txh
      let st1 := r.1
      if st1.ctx.missingTransactions.length = 0 then r
      else
        let l := st1.ctx.missingTransactions
        let last := l.length - 1
        let l := if i < last then l.set i (l.getD last 0) else l
        let l := l.take last
        ({ st1 with ctx := { st1.ctx with missingTransactions := l } }, r.2)

/-- Events appearing in the claims about sequences of entrypoint
invocations. -/
inductive DEvent
  | receiveE (p : CPayload)
  | timeoutE (hv : THV)
  | transactionE (h : XHash)
deriving DecidableEq, Repr

/-- One entrypoint invocation. -/
def stepE (env : HostEnv) (st : DState) (ev : DEvent) : StepRes :=
  match ev with
  | .receiveE p => onReceive env st p
  | .timeoutE hv => onTimeout env st hv
  | .transactionE h => onTransaction env st h

/-- Run a sequence of entrypoint invocations, each with its own host
environment snapshot (the clock advances between events), collecting all
effects. -/
def runE (st : DState) (evs : List (HostEnv × DEvent)) : StepRes :=
  evs.foldl (fun acc e => andThen acc fun st => stepE e.1 st e.2) (st, [])

theorem andThen_fst (r : StepRes) (f : DState → StepRes) :
    (andThen r f).1 = (f r.1).1 := rfl

theorem andThen_snd (r : StepRes) (f : DState → StepRes) :
    (andThen r f).2 = r.2 ++ (f r.1).2 := rfl

theorem initializeConsensus_fst (env : HostEnv) (st : DState) (view : Nat) :
    (initializeConsensus env st view).1 = { st with ctx := st.ctx.reset env view } := by
  unfold initializeConsensus
  by_cases h : (st.ctx.reset env view).watchOnly env = true <;> simp [h]

/-- Simple host environment used by the concrete witnesses below. -/
def envT : HostEnv :=
  { secondsPerBlock := 15
    now := 1000
    nonce := 0
    verifySig := fun h pub s => s == (pub, h.timestamp)
    mySign := fun h => (10, h.timestamp)
    getTx := fun _ => false
    verifyBlock := fun _ => true
    getValidators := fun _ => [10, 11, 12, 13]
    consensusAddress := fun _ => 777
    verifyPrepareRequest := fun _ => true
    verifyPrepareResponse := fun _ => true
    phash := fun p => 1000000 + p.height * 1000 + p.viewNumber * 10 + p.validatorIndex
    myIndexAt := fun _ => 0
    watchOnlyHost := false
    getVerified := [] }

/-- Four-validator context used by the concrete witnesses below. -/
def baseCtx : Ctx :=
  { blockIndex := 1
    viewNumber := 0
    validators := [10, 11, 12, 13]
    myIndex := 0
    prevHash := 5
    timestamp := 0
    nonce := 0
    nextConsensus := 777
    transactionHashes := none
    transactions := []
    missingTransactions := []
    preparationPayloads := [none, none, none, none]
    commitPayloads := [none, none, none, none]
    changeViewPayloads := [none, none, none, none]
    lastSeenMessage := [none, none, none, none]
    blockProduced := none
    lastBlockIndex := 0
    lastBlockTime := 0 }

/-- C3: for every call to checkCommit, if some proposed transaction is
missing or fewer than M CommitPayloads carry the current ViewNumber, the
context is unchanged and no block is produced; otherwise the block is
assembled from the Context, lastBlockIndex and lastBlockTime are updated,
the host ProcessBlock is invoked with the assembled block, and consensus is
re-initialized at view 0 on the next height. -/
theorem C3_checkCommit (env : HostEnv) (st : DState) :
    (¬ (st.ctx.hasAllTransactions = true ∧ st.ctx.mM ≤ commitCount st.ctx) →
      checkCommit env st = (st, [])) ∧
    (st.ctx.hasAllTransactions = true → st.ctx.mM ≤ commitCount st.ctx →
      (checkCommit env st).2.head? = some (Eff.processBlockE st.ctx.createBlock) ∧
      (checkCommit env st).1.ctx.blockIndex = st.ctx.blockIndex + 1 ∧
      (checkCommit env st).1.ctx.viewNumber = 0 ∧
      (checkCommit env st).1.ctx.lastBlockIndex = st.ctx.blockIndex ∧
      (checkCommit env st).1.ctx.lastBlockTime = env.now) := by
  constructor
  · intro h
    unfold checkCommit
    by_cases h1 : st.ctx.hasAllTransactions
    · have h2 : commitCount st.ctx < st.ctx.mM := by
        by_contra h2
        exact h ⟨h1, Nat.le_of_not_lt h2⟩
      simp [h1, h2]
    · simp [h1]
  · intro h1 h2
    have hnl : ¬ commitCount st.ctx < st.ctx.mM := Nat.not_lt.mpr h2
    unfold checkCommit
    simp [h1, hnl, andThen_snd, andThen_fst, withEffs, initializeConsensus_fst,
      Ctx.reset, Ctx.createBlock, Ctx.mkHeader]

/-- Commit payload used in witnesses. -/
def cmPay (i : Nat) : CPayload :=
  { validatorIndex := i
    height := 1
    viewNumber := 0
    ptype := MType.commitT
    body := some (.commitB ⟨(10 + i, 0)⟩) }

/-- Context with a commit quorum at the current view. -/
def ctxC3 : Ctx :=
  { baseCtx with commitPayloads := [some (cmPay 0), some (cmPay 1), some (cmPay 2), none] }

theorem C3_checkCommit_witness :
    (checkCommit envT ⟨ctxC3, false, []⟩).2.head? =
        some (Eff.processBlockE ctxC3.createBlock) ∧
      (checkCommit envT ⟨ctxC3, false, []⟩).1.ctx.blockIndex = ctxC3.blockIndex + 1 ∧
      (checkCommit envT ⟨ctxC3, false, []⟩).1.ctx.viewNumber = 0 ∧
      (checkCommit envT ⟨ctxC3, false, []⟩).1.ctx.lastBlockIndex = ctxC3.blockIndex ∧
      (checkCommit envT ⟨ctxC3, false, []⟩).1.ctx.lastBlockTime = envT.now :=
  (C3_checkCommit envT ⟨ctxC3, false, []⟩).2 (by decide) (by decide)

/-- C10: a payload whose validator index is in range but whose inner message
body is nil is dropped by OnReceive before dispatch: no context slot is
written, no LastSeenMessage update occurs, nothing is cached and nothing is
broadcast. -/
theorem C10_onReceive_nil_body (env : HostEnv) (st : DState) (msg : CPayload)
    (hidx : msg.validatorIndex < st.ctx.validators.length)
    (hbody : msg.body = none) :
    onReceive env st msg = (st, []) := by
  unfold onReceive frontGate
  simp [Nat.not_le.mpr hidx, hbody]

/-- Payload with a nil body used by the C10 witness. -/
def nilBodyMsg : CPayload :=
  { validatorIndex := 2, height := 1, viewNumber := 0,
    ptype := MType.prepareResponseT, body := none }

theorem C10_onReceive_nil_body_witness :
    onReceive envT ⟨baseCtx, false, []⟩ nilBodyMsg = (⟨baseCtx, false, []⟩, []) :=
  C10_onReceive_nil_body envT ⟨baseCtx, false, []⟩ nilBodyMsg (by decide) (by decide)

/-- C6: OnReceive fails fast without side effects on its preconditions: an
out-of-range validator index is dropped; a stale height is dropped; a
future height, or the immediately next view at the current height for a
type other than RecoveryMessage, is cached without being dispatched; in all
of these cases the context (slots and LastSeenMessage included) is
untouched and nothing is broadcast. -/
theorem C6_onReceive_gate (env : HostEnv) (st : DState) (msg : CPayload) :
    (st.ctx.validators.length ≤ msg.validatorIndex →
      onReceive env st msg = (st, [])) ∧
    (msg.validatorIndex < st.ctx.validators.length → msg.body ≠ none →
      msg.height < st.ctx.blockIndex →
      onReceive env st msg = (st, [])) ∧
    (msg.validatorIndex < st.ctx.validators.length → msg.body ≠ none →
      (st.ctx.blockIndex < msg.height ∨
        (msg.height = st.ctx.blockIndex ∧ msg.viewNumber = st.ctx.viewNumber + 1 ∧
          msg.ptype ≠ MType.recoveryMessageT)) →
      onReceive env st msg = ({ st with cache := st.cache ++ [msg] }, [])) := by
  refine ⟨?_, ?_, ?_⟩
  · intro h
    unfold onReceive frontGate
    simp [h]
  · intro h1 h2 h3
    unfold onReceive frontGate
    simp [Nat.not_le.mpr h1, h2, h3]
  · intro h1 h2 h3
    have h4 : ¬ msg.height < st.ctx.blockIndex := by
      rcases h3 with h | h
      · exact Nat.lt_asymm h
      · omega
    unfold onReceive frontGate
    simp [Nat.not_le.mpr h1, h2, h4, h3]

/-- Engine state used by the concrete witnesses. -/
def stT : DState := ⟨baseCtx, false, []⟩

/-- Future-height commit used by the C6 witness. -/
def futureMsg : CPayload :=
  { validatorIndex := 1, height := 2, viewNumber := 0,
    ptype := MType.commitT, body := some (.commitB ⟨(11, 0)⟩) }

theorem C6_onReceive_gate_witness :
    onReceive envT stT futureMsg = ({ stT with cache := [futureMsg] }, []) := by
  have h := (C6_onReceive_gate envT stT futureMsg).2.2 (by decide) (by decide)
    (Or.inl (by decide))
  simpa using h

/-- C8: on receiving a RecoveryRequest from validator index `r`, a node that
has already sent its Commit always replies with a RecoveryMessage; otherwise
it replies if and only if its own index equals `(r + i) mod N` for some `i`
in `1..F`, and at most `F` local indices satisfy that condition, so at most
`F` non-committed nodes answer any single request. -/
theorem C8_onRecoveryRequest (env : HostEnv) (st : DState) (msg : CPayload) :
    (st.ctx.commitSent env = true →
      onRecoveryRequest env st msg = sendRecoveryMessage env st ∧
      (sendRecoveryMessage env st).2 =
        [Eff.broadcastE
          { validatorIndex := st.ctx.myIndex.toNat
            height := st.ctx.blockIndex
            viewNumber := st.ctx.viewNumber
            ptype := MType.recoveryMessageT
            body := some (.recoveryMessageB (buildRecovery env st.ctx)) }]) ∧
    (st.ctx.commitSent env = false →
      ((∃ i, 0 < i ∧ i ≤ st.ctx.fF ∧
          (((msg.validatorIndex + i) % st.ctx.nN : Nat) : Int) = st.ctx.myIndex) ↔
        onRecoveryRequest env st msg = sendRecoveryMessage env st) ∧
      (¬ (∃ i, 0 < i ∧ i ≤ st.ctx.fF ∧
          (((msg.validatorIndex + i) % st.ctx.nN : Nat) : Int) = st.ctx.myIndex) →
        onRecoveryRequest env st msg = (st, []))) ∧
    ((Finset.range st.ctx.nN).filter (fun j =>
        ((List.range st.ctx.fF).any fun k =>
          (msg.validatorIndex + (k + 1)) % st.ctx.nN == j) = true)).card
      ≤ st.ctx.fF := by
  have hne : (sendRecoveryMessage env st).2 ≠ [] := by
    unfold sendRecoveryMessage
    simp
  have hR : onRecoveryRequest env st msg =
      (if st.ctx.commitSent env = true then sendRecoveryMessage env st
       else if ((List.range st.ctx.fF).any fun j =>
           (((msg.validatorIndex + (j + 1)) % st.ctx.validators.length : Nat) : Int)
             == st.ctx.myIndex) = true
         then sendRecoveryMessage env st else (st, [])) := by
    unfold onRecoveryRequest
    by_cases h : st.ctx.commitSent env = true
    · simp [h]
    · rw [Bool.not_eq_true] at h
      simp [h]
  have hcond : (∃ i, 0 < i ∧ i ≤ st.ctx.fF ∧
      (((msg.validatorIndex + i) % st.ctx.nN : Nat) : Int) = st.ctx.myIndex) ↔
      ((List.range st.ctx.fF).any fun j =>
        (((msg.validatorIndex + (j + 1)) % st.ctx.validators.length : Nat) : Int)
          == st.ctx.myIndex) = true := by
    simp only [List.any_eq_true, List.mem_range, beq_iff_eq, Ctx.nN]
    constructor
    · rintro ⟨i, hi0, hiF, hmod⟩
      refine ⟨i - 1, by omega, ?_⟩
      rw [show i - 1 + 1 = i by omega]
      exact hmod
    · rintro ⟨j, hj, hmod⟩
      exact ⟨j + 1, by omega, by omega, hmod⟩
  refine ⟨?_, ?_, ?_⟩
  · intro h
    rw [hR, if_pos h]
    exact ⟨rfl, rfl⟩
  · intro h
    rw [h] at hR
    simp only [Bool.false_eq_true, if_false] at hR
    constructor
    · constructor
      · intro hex
        rw [hR, if_pos (hcond.mp hex)]
      · intro heq
        by_contra hnex
        have hany : ¬ ((List.range st.ctx.fF).any fun j =>
            (((msg.validatorIndex + (j + 1)) % st.ctx.validators.length : Nat) : Int)
              == st.ctx.myIndex) = true := fun hb => hnex (hcond.mpr hb)
        rw [hR, if_neg hany] at heq
        exact hne (by rw [← heq])
    · intro hnex
      have hany : ¬ ((List.range st.ctx.fF).any fun j =>
          (((msg.validatorIndex + (j + 1)) % st.ctx.validators.length : Nat) : Int)
            == st.ctx.myIndex) = true := fun hb => hnex (hcond.mpr hb)
      rw [hR, if_neg hany]
  · have hsub : (Finset.range st.ctx.nN).filter (fun j =>
        ((List.range st.ctx.fF).any fun k =>
          (msg.validatorIndex + (k + 1)) % st.ctx.nN == j) = true) ⊆
        (Finset.range st.ctx.fF).image
          (fun k => (msg.validatorIndex + (k + 1)) % st.ctx.nN) := by
      intro j hj
      have hb := (Finset.mem_filter.mp hj).2
      rcases List.any_eq_true.mp hb with ⟨k, hk, hkj⟩
      exact Finset.mem_image.mpr
        ⟨k, Finset.mem_range.mpr (List.mem_range.mp hk), beq_iff_eq.mp hkj⟩
    calc ((Finset.range st.ctx.nN).filter _).card
        ≤ ((Finset.range st.ctx.fF).image
            (fun k => (msg.validatorIndex + (k + 1)) % st.ctx.nN)).card :=
          Finset.card_le_card hsub
      _ ≤ (Finset.range st.ctx.fF).card := Finset.card_image_le
      _ = st.ctx.fF := Finset.card_range _

/-- RecoveryRequest payload used by the C8 witness. -/
def recReqMsg : CPayload :=
  { validatorIndex := 3, height := 1, viewNumber := 0,
    ptype := MType.recoveryRequestT, body := some (.recoveryRequestB ⟨0⟩) }

theorem C8_onRecoveryRequest_witness :
    onRecoveryRequest envT stT recReqMsg = sendRecoveryMessage envT stT :=
  ((C8_onRecoveryRequest envT stT recReqMsg).2.1 (by decide)).1.mp
    ⟨1, by decide, by decide, by decide⟩

/-- PrepareRequest payload stored at the primary slot in the C2
counterexample state. -/
def reqPay1 : CPayload :=
  { validatorIndex := 1, height := 1, viewNumber := 0,
    ptype := MType.prepareRequestT,
    body := some (.prepareRequestB ⟨100, 0, 777, []⟩) }

/-- PrepareResponse payloads stored in the C2 counterexample state. -/
def respPay (i : Nat) : CPayload :=
  { validatorIndex := i, height := 1, viewNumber := 0,
    ptype := MType.prepareResponseT,
    body := some (.prepareResponseB ⟨1001001⟩) }

/-- The node's own commit, making CommitSent true in the C2 counterexample
state. -/
def ownCommit0 : CPayload :=
  { validatorIndex := 0, height := 1, viewNumber := 0,
    ptype := MType.commitT, body := some (.commitB ⟨(10, 0)⟩) }

/-- Context where CommitSent already holds yet a preparation quorum is
present. -/
def ctxC2 : Ctx :=
  { baseCtx with
    transactionHashes := some []
    preparationPayloads := [some (respPay 0), some reqPay1, some (respPay 2), none]
    commitPayloads := [some ownCommit0, none, none, none] }

/-- Engine state for the C2 counterexample. -/
def stC2 : DState := ⟨ctxC2, false, []⟩

/-- C2 counterexample: in a state where CommitSent holds (so the claimed
precondition `!CommitSent` fails and the claim asserts checkPrepare changes
nothing and sends nothing), checkPrepare nevertheless sends a Commit. -/
theorem C2_checkPrepare_counterexample :
    ctxC2.commitSent envT = true ∧
    ctxC2.hasAllTransactions = true ∧
    hasPrepRequest ctxC2 = true ∧
    ctxC2.mM ≤ prepCount ctxC2 ∧
    (checkPrepare envT stC2).2.head? =
      some (Eff.broadcastE (mkCommitPayload envT ctxC2)) ∧
    (mkCommitPayload envT ctxC2).ptype = MType.commitT ∧
    checkPrepare envT stC2 ≠ (stC2, []) := by decide

/-- C2 (amended): checkPrepare sends a Commit, resets the timer to
SecondsPerBlock and runs checkCommit if and only if hasAllTransactions
holds, a PrepareRequest is present among the PreparationPayloads, and at
least M PreparationPayloads carry the current ViewNumber; otherwise it
changes nothing and sends nothing. The conditions RequestSentOrReceived,
!CommitSent and !WatchOnly of the original claim are enforced by
checkPrepare's callers, not by checkPrepare itself. -/
theorem C2_checkPrepare_amended (env : HostEnv) (st : DState) :
    (¬ (st.ctx.hasAllTransactions = true ∧ hasPrepRequest st.ctx = true ∧
        st.ctx.mM ≤ prepCount st.ctx) →
      checkPrepare env st = (st, [])) ∧
    (st.ctx.hasAllTransactions = true → hasPrepRequest st.ctx = true →
      st.ctx.mM ≤ prepCount st.ctx →
      checkPrepare env st =
        andThen (andThen (sendCommit env st)
          (fun s => changeTimer s env.secondsPerBlock)) (checkCommit env) ∧
      (checkPrepare env st).2.head? =
        some (Eff.broadcastE (mkCommitPayload env st.ctx)) ∧
      (checkPrepare env st).2.get? 1 =
        some (Eff.timerResetE ⟨st.ctx.blockIndex, st.ctx.viewNumber⟩
          env.secondsPerBlock)) := by
  constructor
  · intro h
    unfold checkPrepare
    by_cases h1 : st.ctx.hasAllTransactions
    · by_cases h2 : hasPrepRequest st.ctx
      · have h3 : ¬ st.ctx.mM ≤ prepCount st.ctx := fun h3 => h ⟨h1, h2, h3⟩
        simp [h1, h2, h3]
      · simp [h1, h2]
    · simp [h1]
  · intro h1 h2 h3
    have heq : checkPrepare env st =
        andThen (andThen (sendCommit env st)
          (fun s => changeTimer s env.secondsPerBlock)) (checkCommit env) := by
      unfold checkPrepare
      simp [h1, h2, h3]
    refine ⟨heq, ?_, ?_⟩ <;> rw [heq] <;> rfl

/-- Context with a ChangeView quorum (slots 1..3 request view 1) but an
empty own slot. -/
def cvPayD (i : Nat) (nv : Nat) : CPayload :=
  { validatorIndex := i, height := 1, viewNumber := 0,
    ptype := MType.changeViewT,
    body := some (.changeViewB ⟨nv, 0, .cvTimeout⟩) }

def ctxC4 : Ctx :=
  { baseCtx with
    changeViewPayloads :=
      [none, some (cvPayD 1 1), some (cvPayD 2 1), some (cvPayD 3 1)] }

def stC4 : DState := ⟨ctxC4, false, []⟩

/-- C4 counterexample: the node's own ChangeView slot holds no payload at
all and the quorum for view 1 is reached; the claim says the node then
broadcasts a fresh ChangeView, but checkChangeView broadcasts nothing (the
source only broadcasts when the slot is non-nil with a lower view) while
still re-initializing at view 1. -/
theorem C4_checkChangeView_counterexample :
    ctxC4.watchOnly envT = false ∧
    slotGetI ctxC4.changeViewPayloads ctxC4.myIndex = none ∧
    ctxC4.viewNumber < 1 ∧
    ctxC4.mM ≤ cvCount ctxC4 1 ∧
    ((checkChangeView envT stC4 1).2.all fun e =>
      match e with
      | Eff.broadcastE _ => false
      | _ => true) = true ∧
    (checkChangeView envT stC4 1).1.ctx.viewNumber = 1 ∧
    (checkChangeView envT stC4 1).1.ctx.blockIndex = ctxC4.blockIndex := by decide

theorem initializeConsensus_no_broadcast (env : HostEnv) (st : DState)
    (view : Nat) (p : CPayload) :
    (initializeConsensus env st view).2.head? ≠ some (Eff.broadcastE p) := by
  unfold initializeConsensus
  by_cases h : (st.ctx.reset env view).watchOnly env = true <;> simp [h]

/-- C4 (amended): for a view v above the current one, when at least M
ChangeViewPayloads request a view ≥ v, the context is re-initialized at the
same height with ViewNumber = v, and a fresh ChangeView with reason
ChangeAgreement for v is broadcast if and only if the node is not WatchOnly
and its own slot holds a ChangeView proposing a view lower than v (a node
with an empty own slot broadcasts nothing); with fewer than M such payloads
or v not above the current view, nothing changes. -/
theorem C4_checkChangeView_amended (env : HostEnv) (st : DState) (v : Nat) :
    (v ≤ st.ctx.viewNumber → checkChangeView env st v = (st, [])) ∧
    (cvCount st.ctx v < st.ctx.mM → checkChangeView env st v = (st, [])) ∧
    (st.ctx.viewNumber < v → st.ctx.mM ≤ cvCount st.ctx v →
      (checkChangeView env st v).1.ctx.viewNumber = v ∧
      (checkChangeView env st v).1.ctx.blockIndex = st.ctx.blockIndex ∧
      ((checkChangeView env st v).2.head? =
          some (Eff.broadcastE (mkCVAgreement env st.ctx v)) ↔
        (st.ctx.watchOnly env = false ∧
          ∃ m cv, slotGetI st.ctx.changeViewPayloads st.ctx.myIndex = some m ∧
            m.getChangeView = some cv ∧ cv.newViewNumber < v))) := by
  refine ⟨?_, ?_, ?_⟩
  · intro h
    unfold checkChangeView
    simp [h]
  · intro h
    unfold checkChangeView
    by_cases h1 : v ≤ st.ctx.viewNumber
    · simp [h1]
    · simp [h1, h]
  · intro h1 h2
    have hv0 : v ≠ 0 := by omega
    have hnr : ¬ v ≤ st.ctx.viewNumber := by omega
    have hnc : ¬ cvCount st.ctx v < st.ctx.mM := Nat.not_lt.mpr h2
    unfold checkChangeView
    simp only [hnr, if_false, hnc, andThen_snd, andThen_fst, withEffs]
    refine ⟨?_, ?_, ?_⟩
    · rw [initializeConsensus_fst]
      simp [Ctx.reset, hv0]
    · rw [initializeConsensus_fst]
      simp [Ctx.reset, hv0]
    · by_cases hw : st.ctx.watchOnly env = true
      · simp only [hw, Bool.not_true, Bool.false_eq_true, if_false, List.nil_append]
        constructor
        · intro hh
          exact absurd hh (initializeConsensus_no_broadcast env st v _)
        · rintro ⟨hwf, _⟩
          exact Bool.noConfusion hwf
      · rw [Bool.not_eq_true] at hw
        rcases hsl : slotGetI st.ctx.changeViewPayloads st.ctx.myIndex with _ | m
        · simp only [hw, Bool.not_false, if_true, hsl, List.nil_append]
          constructor
          · intro hh
            exact absurd hh (initializeConsensus_no_broadcast env st v _)
          · rintro ⟨_, m, cv, hm, _⟩
            exact Option.noConfusion hm
        · rcases hcv : m.getChangeView with _ | cv
          · simp only [hw, Bool.not_false, if_true, hsl, hcv, List.nil_append]
            constructor
            · intro hh
              exact absurd hh (initializeConsensus_no_broadcast env st v _)
            · rintro ⟨_, m2, cv2, hm, hcv2, _⟩
              rcases Option.some.injEq m m2 ▸ hm with rfl
              rw [hcv] at hcv2
              exact Option.noConfusion hcv2
          · by_cases hlt : cv.newViewNumber < v
            · simp only [hw, Bool.not_false, if_true, hsl, hcv, hlt,
                List.cons_append, List.head?_cons, true_and]
              constructor
              · intro _
                exact ⟨m, cv, rfl, hcv, hlt⟩
              · intro _
                trivial
            · simp only [hw, Bool.not_false, if_true, hsl, hcv, hlt, if_false,
                List.nil_append]
              constructor
              · intro hh
                exact absurd hh (initializeConsensus_no_broadcast env st v _)
              · rintro ⟨_, m2, cv2, hm, hcv2, hlt2⟩
                have hm2 : m = m2 := Option.some.injEq m m2 ▸ hm
                subst hm2
                rw [hcv] at hcv2
                rcases Option.some.injEq cv cv2 ▸ hcv2 with rfl
                exact absurd hlt2 hlt

/-- Context with a preparation quorum and no commit sent, for the C2
witness. -/
def ctxC2w : Ctx :=
  { baseCtx with
    transactionHashes := some []
    preparationPayloads := [some (respPay 0), some reqPay1, some (respPay 2), none] }

theorem C2_checkPrepare_amended_witness :
    checkPrepare envT ⟨ctxC2w, false, []⟩ =
      andThen (andThen (sendCommit envT ⟨ctxC2w, false, []⟩)
        (fun s => changeTimer s envT.secondsPerBlock)) (checkCommit envT) ∧
    (checkPrepare envT ⟨ctxC2w, false, []⟩).2.head? =
      some (Eff.broadcastE (mkCommitPayload envT ctxC2w)) ∧
    (checkPrepare envT ⟨ctxC2w, false, []⟩).2.get? 1 =
      some (Eff.timerResetE ⟨ctxC2w.blockIndex, ctxC2w.viewNumber⟩
        envT.secondsPerBlock) :=
  (C2_checkPrepare_amended envT ⟨ctxC2w, false, []⟩).2 (by decide) (by decide) (by decide)

/-- Context whose own slot holds a ChangeView for view 1 while the quorum
accepts view 2, for the C4 witness. -/
def ctxC4w : Ctx :=
  { baseCtx with
    changeViewPayloads :=
      [some (cvPayD 0 1), some (cvPayD 1 2), some (cvPayD 2 2), some (cvPayD 3 2)] }

theorem C4_checkChangeView_amended_witness :
    (checkChangeView envT ⟨ctxC4w, false, []⟩ 2).1.ctx.viewNumber = 2 ∧
    (checkChangeView envT ⟨ctxC4w, false, []⟩ 2).1.ctx.blockIndex = ctxC4w.blockIndex ∧
    ((checkChangeView envT ⟨ctxC4w, false, []⟩ 2).2.head? =
        some (Eff.broadcastE (mkCVAgreement envT ctxC4w 2)) ↔
      (ctxC4w.watchOnly envT = false ∧
        ∃ m cv, slotGetI ctxC4w.changeViewPayloads ctxC4w.myIndex = some m ∧
          m.getChangeView = some cv ∧ cv.newViewNumber < 2)) :=
  (C4_checkChangeView_amended envT ⟨ctxC4w, false, []⟩ 2).2.2 (by decide) (by decide)

/-- C7: a Commit at the current view with an available header is stored at
its validator index if and only if its signature verifies against the
header, and checkCommit then runs; without a header it is stored
unverified; a Commit for a different view is stored unconditionally; and a
stored current-view Commit whose signature fails against the header learned
later from a PrepareRequest is cleared by updateExistingPayloads. -/
theorem C7_onCommit (env : HostEnv) (st : DState) (msg : CPayload) :
    (∀ header, st.ctx.viewNumber = msg.viewNumber → st.ctx.makeHeader = some header →
      (env.verifySig header (st.ctx.validators.getD msg.validatorIndex 0)
          (((msg.getCommit).map fun cb => cb.signature).getD (0, 0)) = true →
        onCommit env st msg =
          andThen (extendTimer env st 4) fun st2 =>
            checkCommit env
              { st2 with ctx :=
                { st2.ctx with commitPayloads := slotSet st2.ctx.commitPayloads msg.validatorIndex (some msg) } }) ∧
      (env.verifySig header (st.ctx.validators.getD msg.validatorIndex 0)
          (((msg.getCommit).map fun cb => cb.signature).getD (0, 0)) = false →
        onCommit env st msg = andThen (extendTimer env st 4) fun st2 => (st2, []))) ∧
    (st.ctx.viewNumber = msg.viewNumber → st.ctx.makeHeader = none →
      onCommit env st msg =
        andThen (extendTimer env st 4) fun st2 =>
          ({ st2 with ctx :=
            { st2.ctx with commitPayloads := slotSet st2.ctx.commitPayloads msg.validatorIndex (some msg) } }, [])) ∧
    (st.ctx.viewNumber ≠ msg.viewNumber →
      onCommit env st msg =
        ({ st with ctx :=
          { st.ctx with commitPayloads := slotSet st.ctx.commitPayloads msg.validatorIndex (some msg) } }, [])) ∧
    (∀ i m header req, st.ctx.makeHeader = some header →
      slotGet st.ctx.commitPayloads i = some m →
      m.viewNumber = st.ctx.viewNumber →
      env.verifySig header (st.ctx.validators.getD m.validatorIndex 0)
        (((m.getCommit).map fun cb => cb.signature).getD (0, 0)) = false →
      slotGet (updateExistingPayloads env st req).ctx.commitPayloads i = none) := by
  have hext : ∀ count, (extendTimer env st count).1 = st := by
    intro count
    unfold extendTimer
    split <;> rfl
  have handThen : ∀ (count : Int) (f g : DState → StepRes), f st = g st →
      andThen (extendTimer env st count) f = andThen (extendTimer env st count) g := by
    intro count f g hfg
    unfold andThen
    rw [hext, hfg]
  refine ⟨?_, ?_, ?_, ?_⟩
  · intro header hv hh
    constructor
    · intro hs
      unfold onCommit
      simp only [hv, eq_self_iff_true, if_true]
      refine handThen 4 _ _ ?_
      rw [hh]
      simp at hs
      simp [hs]
    · intro hs
      unfold onCommit
      simp only [hv, eq_self_iff_true, if_true]
      refine handThen 4 _ _ ?_
      rw [hh]
      simp at hs
      simp [hs]
  · intro hv hh
    unfold onCommit
    simp only [hv, eq_self_iff_true, if_true]
    refine handThen 4 _ _ ?_
    rw [hh]
  · intro hv
    have hv' : (st.ctx.viewNumber = msg.viewNumber) = False := eq_false hv
    unfold onCommit
    simp only [hv', if_false]
  · intro i m header req hh hm hmv hs
    have hget : st.ctx.commitPayloads.get? i = some (some m) := by
      rw [slotGet] at hm
      rcases hx : st.ctx.commitPayloads.get? i with _ | o
      · rw [hx] at hm
        cases hm
      · rw [hx] at hm
        cases o with
        | none => cases hm
        | some m2 =>
          simp only [Option.join] at hm
          simp only [Option.some_bind, id] at hm
          rw [hm]
    rcases htx : st.ctx.transactionHashes with _ | l
    · rw [Ctx.makeHeader, htx] at hh
      cases hh
    · rw [Ctx.makeHeader, htx] at hh
      have hdr : header = st.ctx.mkHeader := by
        cases hh
        rfl
      subst hdr
      simp only [Ctx.mkHeader] at hs
      unfold updateExistingPayloads
      simp only [slotGet, List.get?_map, hget, Option.map_some]
      simp only [Ctx.makeHeader, htx, hmv, Ctx.mkHeader]
      rw [htx] at hs
      simp at hs
      simp [hs, hmv]

/-- Context with an available header used by the C7 witness. -/
def ctxC7 : Ctx := { baseCtx with transactionHashes := some [] }

/-- Valid commit from validator 1 used by the C7 witness. -/
def cmtMsg1 : CPayload :=
  { validatorIndex := 1, height := 1, viewNumber := 0,
    ptype := MType.commitT, body := some (.commitB ⟨(11, 0)⟩) }

theorem C7_onCommit_witness :
    onCommit envT ⟨ctxC7, false, []⟩ cmtMsg1 =
      andThen (extendTimer envT ⟨ctxC7, false, []⟩ 4) fun st2 =>
        checkCommit envT
          { st2 with ctx :=
            { st2.ctx with commitPayloads := slotSet st2.ctx.commitPayloads cmtMsg1.validatorIndex (some cmtMsg1) } } :=
  ((C7_onCommit envT ⟨ctxC7, false, []⟩ cmtMsg1).1 ctxC7.mkHeader
    (by decide) (by decide)).1 (by decide)

/-- The new-view number recorded in a stored ChangeView payload (0 when the
payload carries no ChangeView body). -/
def newViewOf (m : CPayload) : Nat :=
  ((m.getChangeView).map fun cv => cv.newViewNumber).getD 0

/-- Slot-wise monotonicity of the stored ChangeView payloads between two
contexts: every stored payload persists (possibly replaced) with a
new-view number at least as large. -/
def cvMono (a b : Ctx) : Prop :=
  ∀ i m, slotGet a.changeViewPayloads i = some m →
    ∃ m2, slotGet b.changeViewPayloads i = some m2 ∧ newViewOf m ≤ newViewOf m2

/-- Height grows weakly, and at an unchanged height the ChangeView slots
are monotone. -/
def cvQ (a b : Ctx) : Prop :=
  a.blockIndex ≤ b.blockIndex ∧ (a.blockIndex = b.blockIndex → cvMono a b)

theorem cvMono_refl (a : Ctx) : cvMono a a :=
  fun _ m h => ⟨m, h, le_refl _⟩

theorem cvMono_of_cv_eq {a b : Ctx}
    (h : a.changeViewPayloads = b.changeViewPayloads) : cvMono a b :=
  fun _ m hm => ⟨m, h ▸ hm, le_refl _⟩

theorem cvMono_trans {a b c : Ctx} (h1 : cvMono a b) (h2 : cvMono b c) :
    cvMono a c := by
  intro i m hm
  rcases h1 i m hm with ⟨m2, hm2, hle2⟩
  rcases h2 i m2 hm2 with ⟨m3, hm3, hle3⟩
  exact ⟨m3, hm3, le_trans hle2 hle3⟩

theorem cvQ_refl (a : Ctx) : cvQ a a :=
  ⟨le_refl _, fun _ => cvMono_refl a⟩

theorem cvQ_of_cv_eq {a b : Ctx} (hbi : a.blockIndex = b.blockIndex)
    (h : a.changeViewPayloads = b.changeViewPayloads) : cvQ a b :=
  ⟨le_of_eq hbi, fun _ => cvMono_of_cv_eq h⟩

theorem cvQ_trans {a b c : Ctx} (h1 : cvQ a b) (h2 : cvQ b c) : cvQ a c := by
  refine ⟨le_trans h1.1 h2.1, fun he => ?_⟩
  have hab : a.blockIndex = b.blockIndex :=
    le_antisymm h1.1 (he ▸ h2.1)
  exact cvMono_trans (h1.2 hab) (h2.2 (hab ▸ he))

theorem cvQ_andThen {st : DState} {r : StepRes} {f : DState → StepRes}
    (h1 : cvQ st.ctx r.1.ctx) (h2 : ∀ s, cvQ s.ctx (f s).1.ctx) :
    cvQ st.ctx (andThen r f).1.ctx :=
  cvQ_trans h1 (h2 r.1)

theorem cvMono_slotSet {c : Ctx} {i : Nat} {msg : CPayload}
    (hguard : ∀ m, slotGet c.changeViewPayloads i = some m →
      newViewOf m ≤ newViewOf msg) :
    cvMono c { c with changeViewPayloads := slotSet c.changeViewPayloads i (some msg) } := by
  intro j m hm
  by_cases hij : i = j
  · subst hij
    have hlen : i < c.changeViewPayloads.length := by
      rw [slotGet] at hm
      rcases hx : c.changeViewPayloads.get? i with _ | o
      · rw [hx] at hm
        cases hm
      · exact (List.get?_eq_some.mp hx).1
    refine ⟨msg, ?_, hguard m hm⟩
    rw [slotGet, slotSet, List.get?_set_eq_of_lt _ hlen]
    rfl
  · refine ⟨m, ?_, le_refl _⟩
    rw [slotGet, slotSet, List.get?_set_ne _ _ hij]
    exact hm

theorem cvQ_changeTimer (st : DState) (d : Int) :
    cvQ st.ctx (changeTimer st d).1.ctx := cvQ_refl _

theorem cvQ_extendTimer (env : HostEnv) (st : DState) (count : Int) :
    cvQ st.ctx (extendTimer env st count).1.ctx := by
  unfold extendTimer
  split <;> exact cvQ_refl _

theorem cvQ_sendCommit (env : HostEnv) (st : DState) :
    cvQ st.ctx (sendCommit env st).1.ctx := by
  unfold sendCommit
  exact cvQ_of_cv_eq rfl rfl

theorem cvQ_sendPrepareResponse (env : HostEnv) (st : DState) :
    cvQ st.ctx (sendPrepareResponse env st).1.ctx := by
  unfold sendPrepareResponse
  exact cvQ_of_cv_eq rfl rfl

theorem cvQ_sendPrepareRequest (env : HostEnv) (st : DState) :
    cvQ st.ctx (sendPrepareRequest env st).1.ctx := by
  unfold sendPrepareRequest
  exact cvQ_of_cv_eq rfl rfl

theorem cvQ_sendChangeView (env : HostEnv) (st : DState) (r : CVReason) :
    cvQ st.ctx (sendChangeView env st r).1.ctx := cvQ_refl _

theorem cvQ_sendRecoveryMessage (env : HostEnv) (st : DState) :
    cvQ st.ctx (sendRecoveryMessage env st).1.ctx := cvQ_refl _

theorem cvQ_reset (env : HostEnv) (c : Ctx) (view : Nat) :
    cvQ c (c.reset env view) := by
  unfold Ctx.reset
  by_cases hv : view = 0
  · simp only [hv, if_true]
    exact ⟨Nat.le_succ _, fun he => absurd he (by simp)⟩
  · simp only [hv, if_false]
    exact cvQ_of_cv_eq rfl rfl

theorem cvQ_initializeConsensus (env : HostEnv) (st : DState) (view : Nat) :
    cvQ st.ctx (initializeConsensus env st view).1.ctx := by
  rw [initializeConsensus_fst]
  exact cvQ_reset env st.ctx view

theorem cvQ_checkCommit (env : HostEnv) (st : DState) :
    cvQ st.ctx (checkCommit env st).1.ctx := by
  unfold checkCommit
  by_cases h1 : (!st.ctx.hasAllTransactions) = true
  · simp only [h1, if_true]
    exact cvQ_refl _
  · simp only [h1, Bool.false_eq_true, if_false]
    by_cases h2 : commitCount st.ctx < st.ctx.mM
    · simp only [h2, if_true]
      exact cvQ_refl _
    · simp only [h2, if_false]
      refine cvQ_andThen (cvQ_of_cv_eq rfl rfl) ?_
      intro s
      exact cvQ_initializeConsensus env s 0

theorem cvQ_checkPrepare (env : HostEnv) (st : DState) :
    cvQ st.ctx (checkPrepare env st).1.ctx := by
  unfold checkPrepare
  by_cases h1 : (!st.ctx.hasAllTransactions) = true
  · simp only [h1, if_true]
    exact cvQ_refl _
  · simp only [h1, Bool.false_eq_true, if_false]
    by_cases h2 : (hasPrepRequest st.ctx && decide (st.ctx.mM ≤ prepCount st.ctx)) = true
    · simp only [h2, if_true]
      refine cvQ_andThen (cvQ_andThen (cvQ_sendCommit env st) ?_) ?_
      · intro s
        exact cvQ_changeTimer s _
      · intro s
        exact cvQ_checkCommit env s
    · simp only [h2, Bool.false_eq_true, if_false]
      exact cvQ_refl _

theorem cvQ_checkChangeView (env : HostEnv) (st : DState) (view : Nat) :
    cvQ st.ctx (checkChangeView env st view).1.ctx := by
  unfold checkChangeView
  by_cases h1 : view ≤ st.ctx.viewNumber
  · simp only [h1, if_true]
    exact cvQ_refl _
  · simp only [h1, if_false]
    by_cases h2 : cvCount st.ctx view < st.ctx.mM
    · simp only [h2, if_true]
      exact cvQ_refl _
    · simp only [h2, if_false]
      refine cvQ_andThen (cvQ_refl _) ?_
      intro s
      exact cvQ_initializeConsensus env s view

theorem cvQ_processMissingTx (env : HostEnv) (st : DState) :
    cvQ st.ctx (processMissingTx env st).1.ctx := by
  unfold processMissingTx
  dsimp only
  split <;> exact cvQ_of_cv_eq rfl rfl

theorem createAndCheckBlock_fst (env : HostEnv) (st : DState) :
    (createAndCheckBlock env st).1.1 = st := by
  unfold createAndCheckBlock
  dsimp only
  split
  · rfl
  · split <;> rfl

theorem updateExistingPayloads_cv (env : HostEnv) (st : DState) (msg : CPayload) :
    (updateExistingPayloads env st msg).ctx.changeViewPayloads =
      st.ctx.changeViewPayloads ∧
    (updateExistingPayloads env st msg).ctx.blockIndex = st.ctx.blockIndex :=
  ⟨rfl, rfl⟩

theorem cvQ_of_pre_eq {a b c : Ctx} (hbi : a.blockIndex = b.blockIndex)
    (hcv : a.changeViewPayloads = b.changeViewPayloads) (h : cvQ b c) : cvQ a c :=
  cvQ_trans (cvQ_of_cv_eq hbi hcv) h

theorem cvQ_onPrepareRequest (env : HostEnv) (st : DState) (msg : CPayload) :
    cvQ st.ctx (onPrepareRequest env st msg).1.ctx := by
  unfold onPrepareRequest
  dsimp only
  split
  · exact cvQ_refl _
  · split
    · exact cvQ_refl _
    · split
      · exact cvQ_refl _
      · split
        · exact cvQ_sendChangeView env st _
        · refine cvQ_andThen (cvQ_extendTimer env st 2) ?_
          intro s
          rcases hx : msg.getPrepareRequest with _ | p
          · simp only [hx]
            exact cvQ_refl _
          · simp only [hx]
            refine cvQ_andThen ?_ ?_
            · refine cvQ_of_pre_eq ?_ ?_ (cvQ_processMissingTx env _) <;> rfl
            · intro t
              dsimp only
              split
              · exact cvQ_of_cv_eq rfl rfl
              · split
                · rw [createAndCheckBlock_fst]
                  exact cvQ_of_cv_eq rfl rfl
                · split
                  · rw [createAndCheckBlock_fst]
                    exact cvQ_of_cv_eq rfl rfl
                  · refine cvQ_andThen ?_ ?_
                    · rw [andThen_fst, createAndCheckBlock_fst]
                      refine cvQ_of_pre_eq ?_ ?_ (cvQ_sendPrepareResponse env _) <;> rfl
                    · intro u
                      exact cvQ_checkPrepare env u

theorem extendTimer_fst (env : HostEnv) (st : DState) (count : Int) :
    (extendTimer env st count).1 = st := by
  unfold extendTimer
  split <;> rfl

theorem cvQ_onPrepareResponse (env : HostEnv) (st : DState) (msg : CPayload) :
    cvQ st.ctx (onPrepareResponse env st msg).1.ctx := by
  have htail : ∀ s : DState,
      cvQ s.ctx ((andThen (extendTimer env s 2) fun s2 =>
        if !(s2.ctx.watchOnly env) && !(s2.ctx.commitSent env)
            && s2.ctx.requestSentOrReceived then
          checkPrepare env s2
        else (s2, [])).1.ctx) := by
    intro s
    refine cvQ_andThen ?_ ?_
    · rw [extendTimer_fst]
      exact cvQ_refl _
    · intro s2
      split
      · exact cvQ_checkPrepare env s2
      · exact cvQ_refl _
  unfold onPrepareResponse
  dsimp only
  split
  · exact cvQ_refl _
  · split
    · exact cvQ_refl _
    · split
      · exact cvQ_refl _
      · split
        · exact cvQ_refl _
        · split
          · split
            · exact cvQ_of_cv_eq rfl rfl
            · split
              · exact cvQ_of_cv_eq rfl rfl
              · refine cvQ_of_pre_eq ?_ ?_ (htail _) <;> rfl
          · refine cvQ_of_pre_eq ?_ ?_ (htail _) <;> rfl

theorem cvQ_onRecoveryRequest (env : HostEnv) (st : DState) (msg : CPayload) :
    cvQ st.ctx (onRecoveryRequest env st msg).1.ctx := by
  unfold onRecoveryRequest
  dsimp only
  split
  · split
    · exact cvQ_refl _
    · exact cvQ_refl _
  · exact cvQ_refl _

theorem cvQ_onCommit (env : HostEnv) (st : DState) (msg : CPayload) :
    cvQ st.ctx (onCommit env st msg).1.ctx := by
  unfold onCommit
  dsimp only
  split
  · refine cvQ_andThen ?_ ?_
    · rw [extendTimer_fst]
      exact cvQ_refl _
    · intro s2
      split
      · exact cvQ_of_cv_eq rfl rfl
      · split
        · refine cvQ_of_pre_eq ?_ ?_ (cvQ_checkCommit env _) <;> rfl
        · exact cvQ_refl _
  · exact cvQ_of_cv_eq rfl rfl

theorem cvQ_onChangeView (env : HostEnv) (st : DState) (msg : CPayload) :
    cvQ st.ctx (onChangeView env st msg).1.ctx := by
  unfold onChangeView
  dsimp only
  rcases hx : msg.getChangeView with _ | p
  · simp only [hx]
    exact cvQ_refl _
  · simp only [hx]
    split
    · exact cvQ_onRecoveryRequest env st msg
    · split
      · exact cvQ_sendRecoveryMessage env st
      · split
        · exact cvQ_refl _
        · next hpr =>
          refine cvQ_trans ?_ (cvQ_checkChangeView env _ _)
          refine ⟨le_refl _, fun _ => cvMono_slotSet ?_⟩
          intro m hm
          rw [Bool.not_eq_true] at hpr
          simp only [Bool.not_eq_false'] at hpr
          rw [hm] at hpr
          dsimp only at hpr
          have hnv : newViewOf msg = p.newViewNumber := by
            rw [newViewOf, hx]
            rfl
          rw [hnv]
          rcases hmcv : m.getChangeView with _ | mcv
          · rw [newViewOf, hmcv]
            simp
          · rw [hmcv] at hpr
            dsimp only at hpr
            rw [newViewOf, hmcv]
            simp only [Bool.not_eq_true', decide_eq_false_iff_not, Nat.not_lt] at hpr
            simpa using hpr

theorem updateLastSeen_cv (c : Ctx) (msg : CPayload) :
    (updateLastSeen c msg).changeViewPayloads = c.changeViewPayloads ∧
    (updateLastSeen c msg).blockIndex = c.blockIndex := by
  unfold updateLastSeen
  dsimp only
  split <;> exact ⟨rfl, rfl⟩

theorem cvQ_dispatchB (env : HostEnv) (st : DState) (msg : CPayload) :
    cvQ st.ctx (dispatchB env st msg).1.ctx := by
  unfold dispatchB
  rcases msg.ptype <;>
    first
    | exact cvQ_onChangeView env st msg
    | exact cvQ_onPrepareRequest env st msg
    | exact cvQ_onPrepareResponse env st msg
    | exact cvQ_onCommit env st msg
    | exact cvQ_onRecoveryRequest env st msg
    | exact cvQ_refl _

theorem cvQ_onReceiveB (env : HostEnv) (st : DState) (msg : CPayload) :
    cvQ st.ctx (onReceiveB env st msg).1.ctx := by
  unfold onReceiveB
  split
  · exact cvQ_refl _
  · exact cvQ_refl _
  · exact cvQ_of_pre_eq (updateLastSeen_cv st.ctx msg).2.symm
      (updateLastSeen_cv st.ctx msg).1.symm
      (cvQ_dispatchB env { st with ctx := updateLastSeen st.ctx msg } msg)

theorem cvQ_foldReceiveB_aux (env : HostEnv) (msgs : List CPayload) :
    ∀ acc : StepRes,
      cvQ acc.1.ctx
        ((msgs.foldl (fun a m => andThen a fun s => onReceiveB env s m) acc).1.ctx) := by
  induction msgs with
  | nil =>
    intro acc
    exact cvQ_refl _
  | cons m ms ih =>
    intro acc
    rw [List.foldl_cons]
    refine cvQ_trans ?_ (ih (andThen acc fun s => onReceiveB env s m))
    rw [andThen_fst]
    exact cvQ_onReceiveB env acc.1 m

theorem cvQ_foldReceiveB (env : HostEnv) (msgs : List CPayload) (st : DState) :
    cvQ st.ctx (foldReceiveB env msgs st).1.ctx :=
  cvQ_foldReceiveB_aux env msgs (st, [])

theorem cvQ_onRecoveryMessage (env : HostEnv) (st : DState) (msg : CPayload) :
    cvQ st.ctx (onRecoveryMessage env st msg).1.ctx := by
  unfold onRecoveryMessage
  dsimp only
  rcases hx : msg.getRecovery with _ | rb
  · simp only [hx]
    exact cvQ_refl _
  · simp only [hx]
    split
    · exact cvQ_refl _
    · refine cvQ_andThen (f := fun st => if msg.viewNumber ≤ st.ctx.viewNumber
        then foldReceiveB env (getCommitsD msg rb) st else (st, [])) ?_ ?_
      · refine cvQ_andThen ?_ ?_
        · split
          · refine cvQ_of_pre_eq ?_ ?_ (cvQ_foldReceiveB env _ _) <;> rfl
          · exact cvQ_refl _
        · intro s
          split
          · refine cvQ_andThen ?_ ?_
            · split
              · rcases hpr : getPrepareRequestD msg rb s.ctx.primaryIndex with _ | pr
                · simp only [hpr]
                  split
                  · exact cvQ_sendPrepareRequest env s
                  · exact cvQ_refl _
                · simp only [hpr]
                  exact cvQ_onReceiveB env s pr
              · exact cvQ_refl _
            · intro t
              exact cvQ_foldReceiveB env _ t
          · exact cvQ_refl _
      · intro s
        dsimp only
        split
        · exact cvQ_foldReceiveB env _ s
        · exact cvQ_refl _

theorem cvQ_onReceive (env : HostEnv) (st : DState) (msg : CPayload) :
    cvQ st.ctx (onReceive env st msg).1.ctx := by
  unfold onReceive
  split
  · exact cvQ_refl _
  · exact cvQ_refl _
  · rcases msg.ptype <;>
      first
      | exact cvQ_of_pre_eq (updateLastSeen_cv st.ctx msg).2.symm
          (updateLastSeen_cv st.ctx msg).1.symm
          (cvQ_onRecoveryMessage env { st with ctx := updateLastSeen st.ctx msg } msg)
      | exact cvQ_of_pre_eq (updateLastSeen_cv st.ctx msg).2.symm
          (updateLastSeen_cv st.ctx msg).1.symm
          (cvQ_dispatchB env { st with ctx := updateLastSeen st.ctx msg } msg)

theorem cvQ_onTimeout (env : HostEnv) (st : DState) (hv : THV) :
    cvQ st.ctx (onTimeout env st hv).1.ctx := by
  unfold onTimeout
  dsimp only
  split
  · exact cvQ_refl _
  · split
    · exact cvQ_refl _
    · split
      · exact cvQ_sendPrepareRequest env st
      · split
        · split
          · refine cvQ_andThen (cvQ_sendRecoveryMessage env st) ?_
            intro s
            exact cvQ_changeTimer s _
          · exact cvQ_sendChangeView env st _
        · exact cvQ_refl _

theorem cvQ_addTransaction (env : HostEnv) (st : DState) (txh : XHash) :
    cvQ st.ctx (addTransaction env st txh).1.ctx := by
  unfold addTransaction
  dsimp only
  generalize (if st.ctx.transactions.contains txh = true then st.ctx.transactions
    else st.ctx.transactions ++ [txh]) = txs
  split
  · exact cvQ_of_cv_eq rfl rfl
  · split
    · exact cvQ_of_cv_eq rfl rfl
    · split
      · rw [createAndCheckBlock_fst]
        exact cvQ_of_cv_eq rfl rfl
      · refine cvQ_andThen ?_ ?_
        · rw [andThen_fst]
          refine cvQ_trans ?_ (cvQ_sendPrepareResponse env _)
          rw [andThen_fst, extendTimer_fst, createAndCheckBlock_fst]
          exact cvQ_of_cv_eq rfl rfl
        · intro u
          exact cvQ_checkPrepare env u

theorem cvQ_onTransaction (env : HostEnv) (st : DState) (txh : XHash) :
    cvQ st.ctx (onTransaction env st txh).1.ctx := by
  unfold onTransaction
  dsimp only
  split
  · exact cvQ_refl _
  · split
    · exact cvQ_refl _
    · split
      · exact cvQ_addTransaction env st txh
      · exact cvQ_trans (cvQ_addTransaction env st txh) (cvQ_of_cv_eq rfl rfl)

theorem cvQ_stepE (env : HostEnv) (st : DState) (ev : DEvent) :
    cvQ st.ctx (stepE env st ev).1.ctx := by
  rcases ev with p | hv | h
  · exact cvQ_onReceive env st p
  · exact cvQ_onTimeout env st hv
  · exact cvQ_onTransaction env st h

theorem cvQ_runE_aux (evs : List (HostEnv × DEvent)) :
    ∀ acc : StepRes,
      cvQ acc.1.ctx
        ((evs.foldl (fun a e => andThen a fun s => stepE e.1 s e.2) acc).1.ctx) := by
  induction evs with
  | nil =>
    intro acc
    exact cvQ_refl _
  | cons e es ih =>
    intro acc
    rw [List.foldl_cons]
    refine cvQ_trans ?_ (ih (andThen acc fun s => stepE e.1 s e.2))
    rw [andThen_fst]
    exact cvQ_stepE e.1 acc.1 e.2

theorem cvQ_runE (st : DState) (evs : List (HostEnv × DEvent)) :
    cvQ st.ctx (runE st evs).1.ctx :=
  cvQ_runE_aux evs (st, [])

/-- C5: along every sequence of OnReceive, OnTimeout and OnTransaction
events at a fixed height, the newViewNumber recorded in
ChangeViewPayloads[i] never decreases: every stored ChangeView payload is
only ever replaced by one whose newViewNumber is at least the stored one,
and a ChangeView whose slot already requests at least the proposed view
never lowers the slot. -/
theorem C5_changeView_monotone (st : DState) (evs : List (HostEnv × DEvent))
    (hfixed : (runE st evs).1.ctx.blockIndex = st.ctx.blockIndex) :
    ∀ i m, slotGet st.ctx.changeViewPayloads i = some m →
      ∃ m2, slotGet (runE st evs).1.ctx.changeViewPayloads i = some m2 ∧
        newViewOf m ≤ newViewOf m2 :=
  (cvQ_runE st evs).2 hfixed.symm

/-- Out-of-range message used by the C5 witness. -/
def junkMsg : CPayload :=
  { validatorIndex := 9, height := 1, viewNumber := 0,
    ptype := MType.commitT, body := some (.commitB ⟨(0, 0)⟩) }

theorem C5_changeView_monotone_witness :
    ∃ m2,
      slotGet (runE stC4 [(envT, DEvent.receiveE junkMsg)]).1.ctx.changeViewPayloads 1 =
        some m2 ∧ newViewOf (cvPayD 1 1) ≤ newViewOf m2 :=
  C5_changeView_monotone stC4 [(envT, DEvent.receiveE junkMsg)] (by decide)
    1 (cvPayD 1 1) (by decide)

/-- A wire byte (values are kept below 256 by the writers). -/
abbrev BByte := Nat

/-- Little-endian 16-bit write (`io.BinWriter` fixed-width integer). -/
def w16 (n : Nat) : List BByte := [n % 256, n / 256 % 256]

/-- Little-endian 32-bit write. -/
def w32 (n : Nat) : List BByte :=
  [n % 256, n / 256 % 256, n / 65536 % 256, n / 16777216 % 256]

/-- Little-endian 64-bit write. -/
def w64 (n : Nat) : List BByte := w32 (n % 4294967296) ++ w32 (n / 4294967296)

/-- Modelled from the spec: the variable-length unsigned integer of the
wire format (spec §6, varuint-prefixed arrays): values below 0xFD are a
single byte, then 0xFD + u16, 0xFE + u32, 0xFF + u64. -/
def wVarUint (n : Nat) : List BByte :=
  if n < 253 then [n]
  else if n < 65536 then 253 :: w16 n
  else if n < 4294967296 then 254 :: w32 n
  else 255 :: w64 n

/-- Read one byte. -/
def r8 : List BByte → Option (Nat × List BByte)
  | [] => none
  | b :: rest => some (b, rest)

/-- Read a little-endian 16-bit integer. -/
def r16 (bs : List BByte) : Option (Nat × List BByte) :=
  (r8 bs).bind fun p1 => (r8 p1.2).map fun p2 => (p1.1 + 256 * p2.1, p2.2)

/-- Read a little-endian 32-bit integer. -/
def r32 (bs : List BByte) : Option (Nat × List BByte) :=
  (r16 bs).bind fun p1 => (r16 p1.2).map fun p2 => (p1.1 + 65536 * p2.1, p2.2)

/-- Read a little-endian 64-bit integer. -/
def r64 (bs : List BByte) : Option (Nat × List BByte) :=
  (r32 bs).bind fun p1 => (r32 p1.2).map fun p2 => (p1.1 + 4294967296 * p2.1, p2.2)

/-- Read a varuint. -/
def rVarUint (bs : List BByte) : Option (Nat × List BByte) :=
  (r8 bs).bind fun p =>
    if p.1 < 253 then some p
    else if p.1 = 253 then r16 p.2
    else if p.1 = 254 then r32 p.2
    else r64 p.2

/-- Read exactly `k` raw bytes. -/
def rBytes : Nat → List BByte → Option (List BByte × List BByte)
  | 0, bs => some ([], bs)
  | _ + 1, [] => none
  | k + 1, b :: bs => (rBytes k bs).map fun p => (b :: p.1, p.2)

/-- Read a varuint-counted array with the given item reader. -/
def rItems {α : Type} (ritem : List BByte → Option (α × List BByte)) :
    Nat → List BByte → Option (List α × List BByte)
  | 0, bs => some ([], bs)
  | k + 1, bs =>
    (ritem bs).bind fun p => (rItems ritem k p.2).map fun q => (p.1 :: q.1, q.2)

/-- Read a varuint-prefixed array (`io.BinReader.ReadArray`). -/
def rArray {α : Type} (ritem : List BByte → Option (α × List BByte))
    (bs : List BByte) : Option (List α × List BByte) :=
  (rVarUint bs).bind fun p => rItems ritem p.1 p.2

/-- Write a varuint-prefixed array (`io.BinWriter.WriteArray`). -/
def wArray {α : Type} (wit : α → List BByte) (l : List α) : List BByte :=
  wVarUint l.length ++ (l.map wit).join

theorem r8_w (b : Nat) (rest : List BByte) : r8 (b :: rest) = some (b, rest) := rfl

theorem r16_w (n : Nat) (rest : List BByte) (h : n < 65536) :
    r16 (w16 n ++ rest) = some (n, rest) := by
  simp only [w16, List.cons_append, List.nil_append, r16, r8, Option.some_bind,
    Option.map_some']
  have he : n % 256 + 256 * (n / 256 % 256) = n := by omega
  rw [he]

theorem r32_w (n : Nat) (rest : List BByte) (h : n < 4294967296) :
    r32 (w32 n ++ rest) = some (n, rest) := by
  have h1 : n % 65536 < 65536 := Nat.mod_lt _ (by omega)
  have h2 : n / 65536 < 65536 := by omega
  have hw : w32 n = w16 (n % 65536) ++ w16 (n / 65536) := by
    simp only [w32, w16, List.cons_append, List.nil_append]
    refine congrArg₂ _ ?_ (congrArg₂ _ ?_ (congrArg₂ _ ?_ (congrArg₂ _ ?_ rfl)))
    · omega
    · omega
    · omega
    · omega
  rw [hw, r32, List.append_assoc, r16_w _ _ h1, Option.some_bind, r16_w _ _ h2,
    Option.map_some']
  have he : n % 65536 + 65536 * (n / 65536) = n := by omega
  rw [he]

theorem r64_w (n : Nat) (rest : List BByte) (h : n < 18446744073709551616) :
    r64 (w64 n ++ rest) = some (n, rest) := by
  have h1 : n % 4294967296 < 4294967296 := Nat.mod_lt _ (by omega)
  have h2 : n / 4294967296 < 4294967296 := by omega
  rw [w64, r64, List.append_assoc, r32_w _ _ h1, Option.some_bind, r32_w _ _ h2,
    Option.map_some']
  have he : n % 4294967296 + 4294967296 * (n / 4294967296) = n := by omega
  rw [he]

theorem rVarUint_w (n : Nat) (rest : List BByte) (h : n < 18446744073709551616) :
    rVarUint (wVarUint n ++ rest) = some (n, rest) := by
  by_cases h1 : n < 253
  · simp [wVarUint, rVarUint, h1, r8]
  · by_cases h2 : n < 65536
    · rw [wVarUint, if_neg h1, if_pos h2]
      rw [List.cons_append, rVarUint, r8, Option.some_bind]
      norm_num
      exact r16_w n rest h2
    · by_cases h3 : n < 4294967296
      · rw [wVarUint, if_neg h1, if_neg h2, if_pos h3]
        rw [List.cons_append, rVarUint, r8, Option.some_bind]
        norm_num
        exact r32_w n rest h3
      · rw [wVarUint, if_neg h1, if_neg h2, if_neg h3]
        rw [List.cons_append, rVarUint, r8, Option.some_bind]
        norm_num
        exact r64_w n rest h

theorem rBytes_id (l : List BByte) (rest : List BByte) :
    rBytes l.length (l ++ rest) = some (l, rest) := by
  induction l with
  | nil => rfl
  | cons b bs ih =>
    show (rBytes bs.length (bs ++ rest)).map (fun p => (b :: p.1, p.2)) = _
    rw [ih, Option.map_some']

theorem rItems_w {α : Type} (wit : α → List BByte)
    (ritem : List BByte → Option (α × List BByte)) (l : List α)
    (hitem : ∀ x ∈ l, ∀ rest, ritem (wit x ++ rest) = some (x, rest)) :
    ∀ rest, rItems ritem l.length ((l.map wit).join ++ rest) = some (l, rest) := by
  induction l with
  | nil =>
    intro rest
    rfl
  | cons x xs ih =>
    intro rest
    show (ritem ((wit x :: xs.map wit).flatten ++ rest)).bind _ = _
    rw [List.flatten_cons, List.append_assoc, hitem x (List.mem_cons_self x xs),
      Option.some_bind]
    have ihx := ih (fun y hy => hitem y (List.mem_cons_of_mem x hy)) rest
    rw [show (xs.map wit).join = (xs.map wit).flatten from rfl] at ihx
    rw [ihx, Option.map_some']

theorem rArray_w {α : Type} (wit : α → List BByte)
    (ritem : List BByte → Option (α × List BByte)) (l : List α)
    (hlen : l.length < 18446744073709551616)
    (hitem : ∀ x ∈ l, ∀ rest, ritem (wit x ++ rest) = some (x, rest)) (rest : List BByte) :
    rArray ritem (wArray wit l ++ rest) = some (l, rest) := by
  rw [wArray, rArray, List.append_assoc, rVarUint_w _ _ hlen, Option.some_bind]
  exact rItems_w wit ritem l hitem rest

/-- Modelled from the spec: a single `u8` byte write. -/
def w8 (n : Nat) : List BByte := [n % 256]

/-- Modelled from the spec: a fixed-width little-endian write of `k` bytes
(used for the 20-byte nextConsensus, 32-byte hashes and the two 32-byte
signature halves). -/
def wLE : Nat → Nat → List BByte
  | 0, _ => []
  | k + 1, n => n % 256 :: wLE k (n / 256)

/-- Modelled from the spec: read `k` bytes as a little-endian integer. -/
def rLE : Nat → List BByte → Option (Nat × List BByte)
  | 0, bs => some (0, bs)
  | k + 1, bs =>
    (r8 bs).bind fun p => (rLE k p.2).map fun q => (p.1 + 256 * q.1, q.2)

theorem r8_w8 (n : Nat) (rest : List BByte) (h : n < 256) :
    r8 (w8 n ++ rest) = some (n, rest) := by
  have hc : w8 n ++ rest = n % 256 :: rest := rfl
  rw [hc, r8_w, Nat.mod_eq_of_lt h]

theorem rLE_w (k n : Nat) (rest : List BByte) (h : n < 256 ^ k) :
    rLE k (wLE k n ++ rest) = some (n, rest) := by
  induction k generalizing n with
  | zero =>
    have hn : n = 0 := by simpa using h
    subst hn
    rfl
  | succ k ih =>
    have hd : n / 256 < 256 ^ k := by
      rw [Nat.div_lt_iff_lt_mul (by norm_num)]
      calc n < 256 ^ (k + 1) := h
        _ = 256 ^ k * 256 := by ring
    rw [wLE, List.cons_append, rLE, r8, Option.some_bind, ih _ hd, Option.map_some']
    have he : n % 256 + 256 * (n / 256) = n := by omega
    rw [he]

/-- Modelled from the spec: a fixed 64-byte commit signature written as two
32-byte halves (the abstract signature is the pair `DSig`). -/
def wSig (s : DSig) : List BByte := wLE 32 s.1 ++ wLE 32 s.2

/-- Modelled from the spec: read a 64-byte signature. -/
def rSig (bs : List BByte) : Option (DSig × List BByte) :=
  (rLE 32 bs).bind fun p => (rLE 32 p.2).map fun q => ((p.1, q.1), q.2)

theorem rSig_w (s : DSig) (rest : List BByte)
    (h1 : s.1 < 256 ^ 32) (h2 : s.2 < 256 ^ 32) :
    rSig (wSig s ++ rest) = some (s, rest) := by
  obtain ⟨a, b⟩ := s
  rw [wSig, rSig, List.append_assoc, rLE_w _ _ _ h1, Option.some_bind,
    rLE_w _ _ _ h2, Option.map_some']

/-- Wire-width bounds of a change-view stub (spec §6: validatorIndex u16,
originalViewNumber u8, timestamp u64). -/
abbrev CVCompact.wf (c : CVCompact) : Prop :=
  c.validatorIndex < 65536 ∧ c.originalViewNumber < 256 ∧
    c.timestamp < 18446744073709551616

/-- Wire-width bound of a preparation stub (spec §6: validatorIndex u16). -/
abbrev PrepCompact.wf (p : PrepCompact) : Prop := p.validatorIndex < 65536

/-- Wire-width bounds of a commit stub (spec §6: viewNumber u8,
validatorIndex u16, 64-byte signature). -/
abbrev CommCompact.wf (c : CommCompact) : Prop :=
  c.viewNumber < 256 ∧ c.validatorIndex < 65536 ∧
    c.signature.1 < 256 ^ 32 ∧ c.signature.2 < 256 ^ 32

/-- Wire-width bounds of a PrepareRequest body (spec §6: timestamp u64,
nonce u64, 20-byte nextConsensus, varuint-counted 32-byte tx hashes). -/
abbrev PrepReqBody.wf (b : PrepReqBody) : Prop :=
  b.timestamp < 18446744073709551616 ∧ b.nonce < 18446744073709551616 ∧
    b.nextConsensus < 256 ^ 20 ∧
    b.transactionHashes.length < 18446744073709551616 ∧
    ∀ h ∈ b.transactionHashes, h < 256 ^ 32

/-- Well-formedness of a recovery message for the wire format: every stub
and the embedded request fit their field widths, array lengths fit a
varuint, and (as `AddPayload` guarantees) an embedded PrepareRequest
excludes a separate preparation hash. -/
abbrev RecoveryBody.wf (m : RecoveryBody) : Prop :=
  m.changeViewPayloads.length < 18446744073709551616 ∧
  (∀ c ∈ m.changeViewPayloads, c.wf) ∧
  m.preparationPayloads.length < 18446744073709551616 ∧
  (∀ p ∈ m.preparationPayloads, p.wf) ∧
  m.commitPayloads.length < 18446744073709551616 ∧
  (∀ c ∈ m.commitPayloads, c.wf) ∧
  (match m.prepareRequest with
   | some r => r.wf ∧ m.preparationHash = none
   | none => True) ∧
  (match m.preparationHash with
   | some h => h < 256 ^ 32
   | none => True)

/-- Modelled from the spec: changeViewCompact encoder, §6 layout
`{validatorIndex:u16, originalViewNumber:u8, timestamp:u64}`. -/
def encCVC (c : CVCompact) : List BByte :=
  w16 c.validatorIndex ++ (w8 c.originalViewNumber ++ w64 c.timestamp)

/-- Modelled from the spec: changeViewCompact decoder. -/
def rCVC (bs : List BByte) : Option (CVCompact × List BByte) :=
  (r16 bs).bind fun p =>
  (r8 p.2).bind fun q =>
  (r64 q.2).map fun t => (⟨p.1, q.1, t.1⟩, t.2)

theorem rCVC_enc (c : CVCompact) (rest : List BByte) (h : c.wf) :
    rCVC (encCVC c ++ rest) = some (c, rest) := by
  obtain ⟨v, ov, ts⟩ := c
  obtain ⟨h1, h2, h3⟩ := h
  simp only [encCVC, List.append_assoc]
  rw [rCVC, r16_w _ _ h1, Option.some_bind, r8_w8 _ _ h2, Option.some_bind,
    r64_w _ _ h3, Option.map_some']

/-- Modelled from the spec: preparationCompact encoder, §6 layout
`{validatorIndex:u16}`. -/
def encPrepC (p : PrepCompact) : List BByte := w16 p.validatorIndex

/-- Modelled from the spec: preparationCompact decoder. -/
def rPrepC (bs : List BByte) : Option (PrepCompact × List BByte) :=
  (r16 bs).map fun p => (⟨p.1⟩, p.2)

theorem rPrepC_enc (p : PrepCompact) (rest : List BByte) (h : p.wf) :
    rPrepC (encPrepC p ++ rest) = some (p, rest) := by
  obtain ⟨v⟩ := p
  rw [encPrepC, rPrepC, r16_w _ _ h, Option.map_some']

/-- Modelled from the spec: commitCompact encoder, §6 layout
`{viewNumber:u8, validatorIndex:u16, signature: fixed 64 bytes}`. -/
def encCommC (c : CommCompact) : List BByte :=
  w8 c.viewNumber ++ (w16 c.validatorIndex ++ wSig c.signature)

/-- Modelled from the spec: commitCompact decoder. -/
def rCommC (bs : List BByte) : Option (CommCompact × List BByte) :=
  (r8 bs).bind fun a =>
  (r16 a.2).bind fun b =>
  (rSig b.2).map fun s => (⟨a.1, b.1, s.1⟩, s.2)

theorem rCommC_enc (c : CommCompact) (rest : List BByte) (h : c.wf) :
    rCommC (encCommC c ++ rest) = some (c, rest) := by
  obtain ⟨vn, vi, sg⟩ := c
  obtain ⟨h1, h2, h3, h4⟩ := h
  simp only [encCommC, List.append_assoc]
  rw [rCommC, r8_w8 _ _ h1, Option.some_bind, r16_w _ _ h2, Option.some_bind,
    rSig_w _ _ h3 h4, Option.map_some']

/-- Modelled from the spec: PrepareRequest body encoder, §6 layout
`timestamp: u64, nonce: u64, nextConsensus: 20 bytes, txHashes:
varuint-length array of 32-byte hashes`. -/
def encPrepReq (b : PrepReqBody) : List BByte :=
  w64 b.timestamp ++
    (w64 b.nonce ++
      (wLE 20 b.nextConsensus ++ wArray (wLE 32) b.transactionHashes))

/-- Modelled from the spec: PrepareRequest body decoder. -/
def rPrepReq (bs : List BByte) : Option (PrepReqBody × List BByte) :=
  (r64 bs).bind fun t =>
  (r64 t.2).bind fun n =>
  (rLE 20 n.2).bind fun a =>
  (rArray (rLE 32) a.2).map fun txs => (⟨t.1, n.1, a.1, txs.1⟩, txs.2)

theorem rPrepReq_enc (b : PrepReqBody) (rest : List BByte) (h : b.wf) :
    rPrepReq (encPrepReq b ++ rest) = some (b, rest) := by
  obtain ⟨ts, nn, nc, txs⟩ := b
  obtain ⟨h1, h2, h3, h4, h5⟩ := h
  simp only [encPrepReq, List.append_assoc]
  rw [rPrepReq, r64_w _ _ h1, Option.some_bind, r64_w _ _ h2, Option.some_bind,
    rLE_w _ _ _ h3, Option.some_bind,
    rArray_w (wLE 32) (rLE 32) txs h4 (fun x hx r => rLE_w 32 x r (h5 x hx)),
    Option.map_some']

/-- `recoveryMessage.EncodeBinary` (recovery_message.go): write the
change-view stub array, a hasReq bool byte, then either the embedded
PrepareRequest body or a varuint-prefixed optional preparation hash
(length 0 or 32), then the preparation stub array and the commit stub
array. -/
def recoveryMessageEncode (m : RecoveryBody) : List BByte :=
  wArray encCVC m.changeViewPayloads ++
    ((match m.prepareRequest with
      | some req => 1 :: encPrepReq req
      | none =>
        match m.preparationHash with
        | none => 0 :: wVarUint 0
        | some h => 0 :: (wVarUint 32 ++ wLE 32 h)) ++
      (wArray encPrepC m.preparationPayloads ++
        wArray encCommC m.commitPayloads))

/-- `recoveryMessage.DecodeBinary` (recovery_message.go): read the
change-view stubs, the hasReq bool, then the PrepareRequest body if the
bool is set, else a varuint-prefixed hash whose length must be 0 or 32
(anything else is an error), then the preparation and commit stubs. -/
def recoveryMessageDecode (bs : List BByte) :
    Option (RecoveryBody × List BByte) :=
  (rArray rCVC bs).bind fun cvs =>
  (r8 cvs.2).bind fun hb =>
  ((if hb.1 ≠ 0 then
      (rPrepReq hb.2).map fun rq =>
        ((some rq.1, (none : Option XHash)), rq.2)
    else
      (rVarUint hb.2).bind fun l =>
        if l.1 = 0 then
          some (((none : Option PrepReqBody), (none : Option XHash)), l.2)
        else if l.1 = 32 then
          (rLE 32 l.2).map fun hh =>
            (((none : Option PrepReqBody), some hh.1), hh.2)
        else none).bind fun pr =>
  (rArray rPrepC pr.2).bind fun pps =>
  (rArray rCommC pps.2).map fun cps =>
  ({ preparationHash := pr.1.2
     preparationPayloads := pps.1
     commitPayloads := cps.1
     changeViewPayloads := cvs.1
     prepareRequest := pr.1.1 }, cps.2))

/-- C9: round-trip of the RecoveryMessage codec — for every well-formed
recoveryMessage value (its change-view, preparation and commit compacts,
and either an embedded PrepareRequest or an optional explicit preparation
hash), decoding the bytes produced by `recoveryMessageEncode` succeeds
and returns the original message, leaving trailing bytes untouched. -/
theorem C9_recoveryMessage_roundtrip (m : RecoveryBody) (h : m.wf)
    (rest : List BByte) :
    recoveryMessageDecode (recoveryMessageEncode m ++ rest) =
      some (m, rest) := by
  obtain ⟨ph, pps, cps, cvs, preq⟩ := m
  obtain ⟨hl1, he1, hl2, he2, hl3, he3, hreq, hph⟩ := h
  have hcv := rArray_w encCVC rCVC cvs hl1 (fun x hx r => rCVC_enc x r (he1 x hx))
  have hpp := rArray_w encPrepC rPrepC pps hl2 (fun x hx r => rPrepC_enc x r (he2 x hx))
  have hcc := rArray_w encCommC rCommC cps hl3 (fun x hx r => rCommC_enc x r (he3 x hx))
  cases preq with
  | some req =>
    obtain ⟨hrw, hpn⟩ := hreq
    subst hpn
    simp only [recoveryMessageEncode, recoveryMessageDecode, List.append_assoc,
      List.cons_append, hcv, Option.some_bind, r8_w]
    rw [if_pos (by norm_num : (1 : Nat) ≠ 0)]
    simp only [rPrepReq_enc req _ hrw, Option.map_some', Option.some_bind,
      hpp, hcc]
  | none =>
    cases ph with
    | none =>
      simp only [recoveryMessageEncode, recoveryMessageDecode, List.append_assoc,
        List.cons_append, hcv, Option.some_bind, r8_w]
      rw [if_neg (by norm_num : ¬((0 : Nat) ≠ 0))]
      have hvz : rVarUint (wVarUint 0 ++ (wArray encPrepC pps ++
          (wArray encCommC cps ++ rest))) =
          some (0, wArray encPrepC pps ++ (wArray encCommC cps ++ rest)) :=
        rVarUint_w 0 _ (by norm_num)
      simp only [hvz, Option.some_bind]
      norm_num
      simp only [Option.some_bind, hpp, hcc, Option.map_some']
    | some hsh =>
      have hhb : hsh < 256 ^ 32 := hph
      simp only [recoveryMessageEncode, recoveryMessageDecode, List.append_assoc,
        List.cons_append, hcv, Option.some_bind, r8_w]
      rw [if_neg (by norm_num : ¬((0 : Nat) ≠ 0))]
      have hv32 : rVarUint (wVarUint 32 ++ (wLE 32 hsh ++ (wArray encPrepC pps ++
          (wArray encCommC cps ++ rest)))) =
          some (32, wLE 32 hsh ++ (wArray encPrepC pps ++
            (wArray encCommC cps ++ rest))) :=
        rVarUint_w 32 _ (by norm_num)
      simp only [hv32, Option.some_bind]
      norm_num
      simp only [rLE_w 32 hsh _ hhb, Option.map_some', Option.some_bind,
        hpp, hcc]

/-- Concrete recovery message exercising every branch of the codec with an
embedded PrepareRequest. -/
abbrev rmW : RecoveryBody :=
  { preparationHash := none
    preparationPayloads := [⟨1⟩, ⟨3⟩]
    commitPayloads := [⟨1, 2, (5, 6)⟩]
    changeViewPayloads := [⟨0, 1, 100⟩, ⟨2, 0, 7⟩]
    prepareRequest := some ⟨123, 7, 42, [11, 22]⟩ }

theorem C9_recoveryMessage_roundtrip_witness :
    rmW.wf ∧
      recoveryMessageDecode (recoveryMessageEncode rmW ++ []) =
        some (rmW, []) :=
  ⟨by decide, C9_recoveryMessage_roundtrip rmW (by decide) []⟩

/-- Host environment of validator `i` with clock value `t` (one snapshot per
entrypoint invocation): the node signs with its own key `10 + i` and knows
its own index; everything else matches `envT`. -/
def envN (i t : Nat) : HostEnv :=
  { envT with
    now := t
    mySign := fun h => (10 + i, h.timestamp)
    myIndexAt := fun _ => (i : Int) }

/-- Initial engine state of validator `i` at height 1, view 0. -/
def stN (i : Nat) : DState := ⟨{ baseCtx with myIndex := (i : Int) }, false, []⟩

/-- ChangeView payload from validator `i` sent at view `v` targeting `nv`. -/
def cvP (i v nv ts : Nat) : CPayload :=
  { validatorIndex := i, height := 1, viewNumber := v,
    ptype := MType.changeViewT,
    body := some (.changeViewB ⟨nv, ts, CVReason.cvTimeout⟩) }

/-- Header of the block node 0 finalizes at view 1 (proposal time 200). -/
def hB : BHeader :=
  { prevHash := 5, timestamp := 200, nonce := 0, height := 1,
    nextConsensus := 777, transactionHashes := [] }

/-- Header of the block node 3 finalizes at view 2 (proposal time 400). -/
def hC : BHeader :=
  { prevHash := 5, timestamp := 400, nonce := 0, height := 1,
    nextConsensus := 777, transactionHashes := [] }

/-- Node 0's view-1 PrepareRequest. -/
def pReqB : CPayload :=
  { validatorIndex := 0, height := 1, viewNumber := 1,
    ptype := MType.prepareRequestT,
    body := some (.prepareRequestB ⟨200, 0, 777, []⟩) }

/-- Node 1's PrepareResponse to `pReqB`. -/
def pResp1b : CPayload :=
  { validatorIndex := 1, height := 1, viewNumber := 1,
    ptype := MType.prepareResponseT,
    body := some (.prepareResponseB ⟨1001010⟩) }

/-- Byzantine node 2's PrepareResponse to `pReqB`. -/
def pResp2b : CPayload :=
  { validatorIndex := 2, height := 1, viewNumber := 1,
    ptype := MType.prepareResponseT,
    body := some (.prepareResponseB ⟨1001010⟩) }

/-- Commit of validator `i` over header `h` at view `v` (the signature is
the honest one for key `10 + i`). -/
def cmtP (i v ts : Nat) : CPayload :=
  { validatorIndex := i, height := 1, viewNumber := v,
    ptype := MType.commitT,
    body := some (.commitB ⟨(10 + i, ts)⟩) }

/-- Byzantine node 2's recovery message: sent with view 0 and carrying a
single garbage commit stub attributed to honest node 1. The stub's
signature `(0, 0)` is not a signature of any validator. -/
def pRec2b : CPayload :=
  { validatorIndex := 2, height := 1, viewNumber := 0,
    ptype := MType.recoveryMessageT,
    body := some (.recoveryMessageB
      ⟨none, [], [⟨0, 1, (0, 0)⟩], [], none⟩) }

/-- Node 3's view-2 PrepareRequest. -/
def pReqC : CPayload :=
  { validatorIndex := 3, height := 1, viewNumber := 2,
    ptype := MType.prepareRequestT,
    body := some (.prepareRequestB ⟨400, 0, 777, []⟩) }

/-- Node 1's PrepareResponse to `pReqC`. -/
def pResp1c : CPayload :=
  { validatorIndex := 1, height := 1, viewNumber := 2,
    ptype := MType.prepareResponseT,
    body := some (.prepareResponseB ⟨1001023⟩) }

/-- Byzantine node 2's PrepareResponse to `pReqC`. -/
def pResp2c : CPayload :=
  { validatorIndex := 2, height := 1, viewNumber := 2,
    ptype := MType.prepareResponseT,
    body := some (.prepareResponseB ⟨1001023⟩) }

/-- Node 0's delivery schedule: view change to 1, propose, gather
preparations and commits, finalize `hB`. -/
def evs0N : List (HostEnv × DEvent) :=
  [(envN 0 100, .timeoutE ⟨1, 0⟩),
   (envN 0 130, .receiveE (cvP 0 0 1 100)),
   (envN 0 135, .receiveE (cvP 3 0 1 120)),
   (envN 0 140, .receiveE (cvP 2 0 1 0)),
   (envN 0 200, .timeoutE ⟨1, 1⟩),
   (envN 0 210, .receiveE pResp1b),
   (envN 0 215, .receiveE pResp2b),
   (envN 0 220, .receiveE (cmtP 1 1 200)),
   (envN 0 225, .receiveE (cmtP 2 1 200))]

/-- Node 1's delivery schedule: view change to 1, respond and commit to
`hB`, get unlocked by the byzantine recovery message, change view to 2,
respond and commit to `hC`. -/
def evs1N : List (HostEnv × DEvent) :=
  [(envN 1 130, .receiveE (cvP 0 0 1 100)),
   (envN 1 135, .receiveE (cvP 3 0 1 120)),
   (envN 1 140, .receiveE (cvP 2 0 1 0)),
   (envN 1 205, .receiveE pReqB),
   (envN 1 215, .receiveE pResp2b),
   (envN 1 220, .receiveE (cmtP 0 1 200)),
   (envN 1 300, .receiveE pRec2b),
   (envN 1 320, .timeoutE ⟨1, 1⟩),
   (envN 1 325, .receiveE (cvP 3 1 2 310)),
   (envN 1 330, .receiveE (cvP 2 1 2 0)),
   (envN 1 335, .receiveE (cvP 1 1 2 320)),
   (envN 1 405, .receiveE pReqC),
   (envN 1 410, .receiveE pResp2c)]

/-- Node 3's delivery schedule: view change to 1, silence during view 1,
view change to 2, propose, gather preparations and commits, finalize
`hC`. -/
def evs3N : List (HostEnv × DEvent) :=
  [(envN 3 120, .timeoutE ⟨1, 0⟩),
   (envN 3 130, .receiveE (cvP 0 0 1 100)),
   (envN 3 132, .receiveE (cvP 3 0 1 120)),
   (envN 3 140, .receiveE (cvP 2 0 1 0)),
   (envN 3 310, .timeoutE ⟨1, 1⟩),
   (envN 3 325, .receiveE (cvP 3 1 2 310)),
   (envN 3 330, .receiveE (cvP 2 1 2 0)),
   (envN 3 335, .receiveE (cvP 1 1 2 320)),
   (envN 3 400, .timeoutE ⟨1, 2⟩),
   (envN 3 405, .receiveE pResp1c),
   (envN 3 410, .receiveE pResp2c),
   (envN 3 415, .receiveE (cmtP 1 2 400)),
   (envN 3 420, .receiveE (cmtP 2 2 400))]

/-- The payloads a run broadcast. -/
def broadcastsOf (r : StepRes) : List CPayload :=
  r.2.filterMap fun e =>
    match e with
    | .broadcastE p => some p
    | _ => none

/-- The payloads a delivery schedule hands to the engine. -/
def deliveredPayloads (evs : List (HostEnv × DEvent)) : List CPayload :=
  evs.filterMap fun e =>
    match e.2 with
    | .receiveE p => some p
    | _ => none

/-- C1: agreement safety is violated — the spec's safety property fails on
the code. In a four-validator network (`F = 1`) where only validator 2 is
byzantine, honest validators 0, 1 and 3 each run the engine over a delivery
schedule in which every payload attributed to an honest validator is one
that validator's engine really broadcast, and the only forged payloads
carry the byzantine index 2. Node 0 finalizes block `hB` at height 1 with
commits from 0, 1 and 2; then node 2's recovery message, whose garbage
commit stub `(0, 0)` is not a valid signature of any validator, overwrites
node 1's own commit slot through `onCommit`'s other-view branch and
unlocks it; node 1 joins a view change and commits again, and node 3
finalizes a different block `hC` at the same height with commits from 1, 2
and 3. Two validators finalize at height 1, and the finalized blocks
differ. -/
theorem C1_agreement_violation :
    (Eff.processBlockE hB ∈ (runE (stN 0) evs0N).2 ∧
      Eff.processBlockE hC ∈ (runE (stN 3) evs3N).2 ∧
      hB ≠ hC ∧ hB.height = hC.height) ∧
    (∀ p ∈ deliveredPayloads (evs0N ++ evs1N ++ evs3N),
      p.validatorIndex ≠ 2 →
        p ∈ broadcastsOf (runE (stN 0) evs0N) ++
            broadcastsOf (runE (stN 1) evs1N) ++
            broadcastsOf (runE (stN 3) evs3N)) ∧
    (∀ p ∈ broadcastsOf (runE (stN 0) evs0N), p.validatorIndex = 0) ∧
    (∀ p ∈ broadcastsOf (runE (stN 1) evs1N), p.validatorIndex = 1) ∧
    (∀ p ∈ broadcastsOf (runE (stN 3) evs3N), p.validatorIndex = 3) ∧
    (∀ i < 4, (envN 1 300).verifySig hB (10 + i) (0, 0) = false ∧
      (envN 1 300).verifySig hC (10 + i) (0, 0) = false) ∧
    (stN 0).ctx.fF = 1 := by
  refine ⟨⟨?_, ?_, ?_, ?_⟩, ?_, ?_, ?_, ?_, ?_, ?_⟩ <;> decide
